import Mathlib

/-!
Verification development for the Amtrak Auto Train status tracker
(`amtrak_status.py`). The Python program is shallowly embedded below:
pure helpers become Lean functions, the CSV store becomes an explicit
list of persisted rows, network I/O becomes an `Except`-typed response
parameter, and Python exceptions that can escape a function are modelled
with `Except String`.
-/

namespace AmtrakStatus

/-- Python values as they occur in the `train_num` record field: freshly
fetched rows hold an `int`, rows read back from the CSV hold a `str`. -/
inductive PyVal where
  | int (n : Int)
  | str (s : String)
deriving DecidableEq, Repr

/-- Python `str(v)` for the two value shapes of `PyVal`. -/
def pyStr : PyVal → String
  | .int n => toString n
  | .str s => s

/-- JSON values, the shape of the payload returned by `resp.json()` in
`fetch_realtime`. Numbers are modelled as integers (no field of the
payload is ever used as a float). -/
inductive JVal where
  | null
  | bool (b : Bool)
  | num (n : Int)
  | str (s : String)
  | arr (xs : List JVal)
  | obj (kvs : List (String × JVal))

/-- Python truthiness (`bool(v)`) for JSON values. -/
def jTruthy : JVal → Bool
  | .null => false
  | .bool b => b
  | .num n => n != 0
  | .str s => s != ""
  | .arr xs => !xs.isEmpty
  | .obj kvs => !kvs.isEmpty

/-- Python `d.get(k, default)` on a JSON object. Payload objects are
assumed to have distinct keys, so first-match lookup is adequate. -/
def dictGet (kvs : List (String × JVal)) (k : String) (d : JVal) : JVal :=
  match kvs.lookup k with
  | some v => v
  | none => d

/-- Python `v == s` where `s` is a `str`: only equal-valued strings
compare equal; values of any other type compare unequal. -/
def jvalEqStr (v : JVal) (s : String) : Bool :=
  match v with
  | .str t => t == s
  | _ => false

/-- Python `round(delta / 60)` where `delta` is a whole number of seconds:
rounds to the nearest integer with ties to even (banker's rounding, the
behaviour of `round` on floats). For every magnitude reachable here the
float expression `total_seconds() / 60` is exact at the tie points, so
integer arithmetic reproduces it. -/
def pyRoundDiv60 (delta : Int) : Int :=
  if delta % 60 < 30 then delta / 60
  else if 30 < delta % 60 then delta / 60 + 1
  else if (delta / 60) % 2 = 0 then delta / 60 else delta / 60 + 1

/-- Gregorian leap-year test, as `calendar.isleap` / `datetime` use it. -/
def isLeapYear (y : Nat) : Bool :=
  (y % 4 == 0 && y % 100 != 0) || y % 400 == 0

/-- Length of a month, as `datetime` validates the day field. -/
def daysInMonth (y m : Nat) : Nat :=
  if m = 2 then (if isLeapYear y then 29 else 28)
  else if m = 4 ∨ m = 6 ∨ m = 9 ∨ m = 11 then 30 else 31

/-- Validity of a calendar date under the `datetime` constructor
(`MINYEAR = 1`, `MAXYEAR = 9999`). -/
def validYMD (y m d : Nat) : Bool :=
  1 ≤ y && y ≤ 9999 && 1 ≤ m && m ≤ 12 && 1 ≤ d && d ≤ daysInMonth y m

/-- Days from 1970-01-01 to the given civil date (Hinnant's algorithm),
the day count underlying `datetime` subtraction. -/
def daysFromCivil (y m d : Nat) : Int :=
  let yi : Int := if m ≤ 2 then (y : Int) - 1 else (y : Int)
  let era : Int := Int.ediv yi 400
  let yoe : Int := yi - era * 400
  let mp : Int := if m ≤ 2 then (m : Int) + 9 else (m : Int) - 3
  let doy : Int := Int.ediv (153 * mp + 2) 5 + (d : Int) - 1
  let doe : Int := yoe * 365 + Int.ediv yoe 4 - Int.ediv yoe 100 + doy
  era * 146097 + doe - 719468

/-- A parsed `datetime` value: calendar fields plus an optional fixed UTC
offset in seconds (`tzinfo`), exactly the information `strptime` produces
for the two formats used by the program. -/
structure PyDateTime where
  year : Nat
  month : Nat
  day : Nat
  hour : Nat
  minute : Nat
  second : Nat
  tzOffsetSeconds : Option Int
deriving DecidableEq, Repr

/-- Seconds since the epoch of the naive (wall-clock) reading of a
`PyDateTime`, ignoring any offset. -/
def naiveSeconds (dt : PyDateTime) : Int :=
  daysFromCivil dt.year dt.month dt.day * 86400 +
    ((dt.hour * 3600 + dt.minute * 60 + dt.second : Nat) : Int)

/-- Seconds since the epoch of the instant a `PyDateTime` denotes: the
naive reading shifted by the UTC offset when one is attached. `datetime`
subtraction of two values of equal awareness equals the difference of
these numbers. -/
def utcSeconds (dt : PyDateTime) : Int :=
  naiveSeconds dt - (dt.tzOffsetSeconds.getD 0)

/-! ### Character-level `strptime`

`datetime.strptime` matches the whole input against a regex built from
the format. Every numeric directive used here is followed by a non-digit
literal, so regex backtracking is equivalent to reading the maximal digit
run and bounding its length. -/

/-- Splits off the maximal leading run of ASCII digits. -/
def takeDigits : List Char → List Char × List Char
  | [] => ([], [])
  | c :: cs =>
    if c.isDigit then
      let p := takeDigits cs
      (c :: p.1, p.2)
    else ([], c :: cs)

/-- Numeric value of a digit run. -/
def digitsVal (ds : List Char) : Nat :=
  ds.foldl (fun a c => a * 10 + (c.toNat - 48)) 0

/-- Reads a one-or-two-digit `strptime` field whose value must lie in
`lo..hi` (the directives `%m`, `%d`, `%H`, `%M`, `%S`). -/
def readNum2 (lo hi : Nat) (cs : List Char) : Option (Nat × List Char) :=
  let p := takeDigits cs
  if p.1.length = 0 || 2 < p.1.length then none
  else
    let v := digitsVal p.1
    if lo ≤ v && v ≤ hi then some (v, p.2) else none

/-- Reads a `strptime` field of exactly `n` digits (`%Y` is four digits,
`%y` is two). -/
def readNumExact (n : Nat) (cs : List Char) : Option (Nat × List Char) :=
  let p := takeDigits cs
  if p.1.length = n then some (digitsVal p.1, p.2) else none

/-- Consumes one expected literal character. -/
def expectChar (c : Char) : List Char → Option (List Char)
  | [] => none
  | x :: xs => if x = c then some xs else none

/-- ASCII whitespace, the characters a whitespace literal in a `strptime`
format (compiled to a regex matching one or more of them) accepts. -/
def isPyWhitespace (c : Char) : Bool :=
  c = ' ' || c = '\t' || c = '\n' || c = '\r' || c = '\x0b' || c = '\x0c'

/-- Drops leading whitespace. -/
def skipWsMany : List Char → List Char
  | [] => []
  | c :: cs => if isPyWhitespace c then skipWsMany cs else c :: cs

/-- Requires at least one whitespace character and drops the whole run. -/
def skipWs1 : List Char → Option (List Char)
  | [] => none
  | c :: cs => if isPyWhitespace c then some (skipWsMany cs) else none

/-- Reads exactly two digits. -/
def read2Digits : List Char → Option (Nat × List Char)
  | a :: b :: rest =>
    if a.isDigit && b.isDigit then
      some ((a.toNat - 48) * 10 + (b.toNat - 48), rest)
    else none
  | _ => none

/-- Models the `%z` directive: `Z` (upper case only), or a sign followed by
`HHMM`, `HH:MM`, `HHMMSS` or `HH:MM:SS` (the colon usage must be
consistent, exactly as `_strptime` enforces). The resulting offset must be
strictly smaller than 24 hours (the `timezone` constructor's bound).
Fractional-second offsets are not modelled. Returns the signed offset in
seconds and the remaining input. -/
def parseTz (cs : List Char) : Option (Int × List Char) :=
  match cs with
  | [] => none
  | c :: rest =>
    if c = 'Z' then some (0, rest)
    else if c = '+' || c = '-' then
      match read2Digits rest with
      | none => none
      | some (hh, r1) =>
        let colonForm : Bool := match r1 with
          | ':' :: _ => true
          | _ => false
        let r2 := if colonForm then r1.drop 1 else r1
        match read2Digits r2 with
        | none => none
        | some (mm, r3) =>
          let secPart : Option (Option Nat × List Char) :=
            if colonForm then
              match r3 with
              | ':' :: r4 =>
                match read2Digits r4 with
                | some (ss, r5) => some (some ss, r5)
                | none => none
              | d :: _ => if d.isDigit then none else some (none, r3)
              | [] => some (none, r3)
            else
              match read2Digits r3 with
              | some (ss, r5) => some (some ss, r5)
              | none =>
                match r3 with
                | ':' :: d :: _ => if d.isDigit then none else some (none, r3)
                | _ => some (none, r3)
          match secPart with
          | none => none
          | some (ssOpt, rFinal) =>
            let total : Nat := hh * 3600 + mm * 60 + ssOpt.getD 0
            if total < 86400 then
              some (if c = '-' then -(total : Int) else (total : Int), rFinal)
            else none
    else none

/-- Models `datetime.strptime(s, "%Y-%m-%dT%H:%M:%S%z")`. The `T` literal
is matched case-insensitively (the compiled regex carries `IGNORECASE`);
the offset is mandatory; the calendar fields are validated exactly as the
`datetime` constructor validates them (in particular seconds above 59,
admitted by the `%S` regex, make the construction fail). -/
def parseIsoTzFmt (s : String) : Option PyDateTime :=
  match readNumExact 4 s.toList with
  | none => none
  | some (y, r1) =>
    match expectChar '-' r1 with
    | none => none
    | some r2 =>
      match readNum2 1 12 r2 with
      | none => none
      | some (m, r3) =>
        match expectChar '-' r3 with
        | none => none
        | some r4 =>
          match readNum2 1 31 r4 with
          | none => none
          | some (d, r5) =>
            match r5 with
            | [] => none
            | t :: r6 =>
              if t = 'T' || t = 't' then
                match readNum2 0 23 r6 with
                | none => none
                | some (h, r7) =>
                  match expectChar ':' r7 with
                  | none => none
                  | some r8 =>
                    match readNum2 0 59 r8 with
                    | none => none
                    | some (mi, r9) =>
                      match expectChar ':' r9 with
                      | none => none
                      | some r10 =>
                        match readNum2 0 61 r10 with
                        | none => none
                        | some (sec, r11) =>
                          match parseTz r11 with
                          | none => none
                          | some (off, r12) =>
                            if r12.isEmpty && validYMD y m d && sec ≤ 59 then
                              some ⟨y, m, d, h, mi, sec, some off⟩
                            else none
              else none

/-- Models `datetime.strptime(s, "%m/%d/%Y %H:%M")`: the space literal
matches one or more whitespace characters; the result is naive with
seconds zero. -/
def parseSlashFmt (s : String) : Option PyDateTime :=
  match readNum2 1 12 s.toList with
  | none => none
  | some (m, r1) =>
    match expectChar '/' r1 with
    | none => none
    | some r2 =>
      match readNum2 1 31 r2 with
      | none => none
      | some (d, r3) =>
        match expectChar '/' r3 with
        | none => none
        | some r4 =>
          match readNumExact 4 r4 with
          | none => none
          | some (y, r5) =>
            match skipWs1 r5 with
            | none => none
            | some r6 =>
              match readNum2 0 23 r6 with
              | none => none
              | some (h, r7) =>
                match expectChar ':' r7 with
                | none => none
                | some r8 =>
                  match readNum2 0 59 r8 with
                  | none => none
                  | some (mi, r9) =>
                    if r9.isEmpty && validYMD y m d then
                      some ⟨y, m, d, h, mi, 0, none⟩
                    else none

/-- The format loop of `parse_delay_minutes`: try
`"%Y-%m-%dT%H:%M:%S%z"` then `"%m/%d/%Y %H:%M"`, first success wins. -/
def parseWithFormats (s : String) : Option PyDateTime :=
  match parseIsoTzFmt s with
  | some dt => some dt
  | none => parseSlashFmt s

/-- Embeds `parse_delay_minutes(scheduled, actual)`. Empty inputs yield
`None`; each input is parsed by `parseWithFormats`; if exactly one parsed
value carries an offset the offset is dropped from that value (the `elif`
branches have mutually exclusive guards, so two sequential conditionals
are equivalent); the difference `actual - scheduled` of the two
equally-aware values is rounded to minutes. A `datetime` subtraction of
mixed awareness would raise, but cannot occur after the stripping step. -/
def parse_delay_minutes (scheduled actual : String) : Option Int :=
  if scheduled = "" ∨ actual = "" then none
  else
    match parseWithFormats scheduled, parseWithFormats actual with
    | some sch0, some act0 =>
      let sch := if sch0.tzOffsetSeconds.isSome && act0.tzOffsetSeconds.isNone then
          { sch0 with tzOffsetSeconds := none } else sch0
      let act := if act0.tzOffsetSeconds.isSome && sch0.tzOffsetSeconds.isNone then
          { act0 with tzOffsetSeconds := none } else act0
      some (pyRoundDiv60 (utcSeconds act - utcSeconds sch))
    | _, _ => none

/-! ### Records and the CSV store -/

/-- The value stored in a delay column: either the result of
`parse_delay_minutes` (an `int` or `None`) or the empty string the code
substitutes when a scheduled or actual time is missing. -/
inductive DelayCell where
  | delay (n : Option Int)
  | blank

/-- An in-memory row dict as built by the two adapters, with the value
types the Python code actually produces: `train_num` is an `int`,
realtime timestamp fields are raw JSON values after an `or ""`, and the
historical adapter stores plain cell strings (wrapped as `JVal.str`). -/
structure MemRow where
  date : String
  train_num : PyVal
  station : String
  scheduled_arrival : JVal
  actual_arrival : JVal
  arrival_delay_mins : DelayCell
  scheduled_departure : JVal
  actual_departure : JVal
  departure_delay_mins : DelayCell
  status : JVal
  source : String

/-- A persisted CSV row, restricted to the three dedup-key columns; these
are the only columns the program ever reads back
(`date_already_recorded`), and every value is a string after the CSV
round trip. -/
structure StoredRow where
  date : String
  station : String
  train_num : String
deriving DecidableEq, Repr

/-- The CSV serialization of a freshly built row, projected to the
columns that are read back; `csv.DictWriter` renders the `int`
train number in decimal. -/
def serializeRow (r : MemRow) : StoredRow :=
  ⟨r.date, r.station, pyStr r.train_num⟩

/-- Embeds `date_already_recorded(date_str, station, train_num)`: a linear
scan of the CSV comparing the date and station cells by string equality
and the train number by `str(row["train_num"]) == str(train_num)` (the
stored cell is already a string, so `str` on it is the identity). -/
def date_already_recorded (store : List StoredRow) (date_str station : String)
    (train_num : PyVal) : Bool :=
  store.any fun row =>
    row.date == date_str && row.station == station && row.train_num == pyStr train_num

/-- Embeds `append_rows(rows)`: the CSV grows by the serialized rows, in
order, with all existing rows untouched. -/
def append_rows (store : List StoredRow) (rows : List MemRow) : List StoredRow :=
  store ++ rows.map serializeRow

/-! ### Realtime adapter (`fetch_realtime`)

The HTTP layer is modelled as an `Except Unit JVal` argument: `.error`
stands for any exception inside the request/`raise_for_status`/`json()`
block (which the code catches, returning `[]`); `.ok data` is the decoded
payload. Exceptions the remaining body can raise — `AttributeError` from
`.get` on a non-dict, `TypeError` from iterating a non-iterable — escape
`fetch_realtime`, so the embedding returns `Except String`. -/

/-- Python iteration over a JSON value: lists yield their elements,
strings their characters (as one-character strings), dicts their keys;
numbers, booleans and `None` raise `TypeError`. -/
def pyIterate : JVal → Except String (List JVal)
  | .arr xs => .ok xs
  | .str s => .ok (s.toList.map fun c => .str (String.singleton c))
  | .obj kvs => .ok (kvs.map fun kv => .str kv.1)
  | .null => .error "TypeError"
  | .bool _ => .error "TypeError"
  | .num _ => .error "TypeError"

/-- Python list indexing, raising `IndexError` when out of range. -/
def pyGetList {α : Type} (l : List α) (i : Nat) : Except String α :=
  match l.get? i with
  | some a => .ok a
  | none => .error "IndexError"

/-- Models `datetime.fromisoformat(s).strftime("%Y-%m-%d")`, restricted
to the ISO forms accepted by every supported interpreter version:
`YYYY-MM-DD`, optionally followed by a single separator character and
`HH:MM[:SS]`, optionally followed by a UTC offset `±HH:MM[:SS]` with
components in their usual ranges. Fractional seconds are not modelled.
Returns the date rendered as `YYYY-MM-DD`. -/
def isoOffsetTail (cs : List Char) : Bool :=
  match cs with
  | [] => true
  | sign :: h1 :: h2 :: ':' :: m1 :: m2 :: rest =>
    (sign = '+' || sign = '-') && [h1, h2, m1, m2].all Char.isDigit &&
      digitsVal [h1, h2] ≤ 23 && digitsVal [m1, m2] ≤ 59 &&
      (match rest with
        | [] => true
        | ':' :: s1 :: s2 :: [] => s1.isDigit && s2.isDigit && digitsVal [s1, s2] ≤ 59
        | _ => false)
  | _ => false

/-- Optional `:SS` after the minutes of an ISO time, then the offset. -/
def isoSecondsTail (cs : List Char) : Bool :=
  match cs with
  | ':' :: a :: b :: rest => a.isDigit && b.isDigit && digitsVal [a, b] ≤ 59 && isoOffsetTail rest
  | ':' :: _ => false
  | _ => isoOffsetTail cs

/-- Separator plus `HH:MM` plus optional seconds and offset, or nothing. -/
def isoTimeTail (cs : List Char) : Bool :=
  match cs with
  | [] => true
  | _sep :: h1 :: h2 :: ':' :: n1 :: n2 :: rest =>
    [h1, h2, n1, n2].all Char.isDigit && digitsVal [h1, h2] ≤ 23 &&
      digitsVal [n1, n2] ≤ 59 && isoSecondsTail rest
  | _ => false

/-- Zero-padded two-digit rendering. -/
def pad2 (n : Nat) : String :=
  if n < 10 then "0" ++ toString n else toString n

/-- Zero-padded four-digit rendering (every year parsed here has four
digits, so this matches `strftime("%Y")`). -/
def pad4 (n : Nat) : String :=
  if n < 10 then "000" ++ toString n
  else if n < 100 then "00" ++ toString n
  else if n < 1000 then "0" ++ toString n
  else toString n

/-- Renders a date as `YYYY-MM-DD`. -/
def renderDate (y m d : Nat) : String :=
  pad4 y ++ "-" ++ pad2 m ++ "-" ++ pad2 d

/-- See the module comment above: `fromisoformat` followed by
`strftime("%Y-%m-%d")`, returning `none` where Python would raise. -/
def fromisoformatDate (s : String) : Option String :=
  match s.toList with
  | y1 :: y2 :: y3 :: y4 :: '-' :: m1 :: m2 :: '-' :: d1 :: d2 :: rest =>
    if [y1, y2, y3, y4, m1, m2, d1, d2].all Char.isDigit then
      let y := digitsVal [y1, y2, y3, y4]
      let m := digitsVal [m1, m2]
      let d := digitsVal [d1, d2]
      if validYMD y m d && isoTimeTail rest then some (renderDate y m d) else none
    else none
  | _ => none

/-- Truthiness of the `train_date` variable (a string or `None`). -/
def optTruthy : Option String → Bool
  | none => false
  | some s => s != ""

/-- Python `v or ""` on a JSON field value. -/
def pyOrEmpty (v : JVal) : JVal :=
  if jTruthy v then v else .str ""

/-- The call `parse_delay_minutes(a, b)` on raw JSON field values: both
must be truthy strings to parse (a non-string argument makes `strptime`
raise `TypeError`, which the function's own `except Exception` turns into
`None`). -/
def jParseDelay (a b : JVal) : Option Int :=
  match a, b with
  | .str s, .str t => parse_delay_minutes s t
  | _, _ => none

/-- One iteration of the station loop in `fetch_realtime`: the
accumulator carries the mutable `train_date` variable and the rows list.
A station entry that is not a dict raises `AttributeError` at
`stn.get`. -/
def rtStationRow (train_num : Nat) (stations : List String) (origin_station now : String)
    (acc : Option String × List MemRow) (stn : JVal) :
    Except String (Option String × List MemRow) :=
  match stn with
  | .obj kv =>
    let code := dictGet kv "code" (.str "")
    match code with
    | .str codeS =>
      if stations.contains codeS then
        let sch_arr := dictGet kv "schArr" (.str "")
        let sch_dep := dictGet kv "schDep" (.str "")
        let act_arr := dictGet kv "arr" (.str "")
        let act_dep := dictGet kv "dep" (.str "")
        let td1 : Option String :=
          if codeS = origin_station && jTruthy sch_dep then
            some (match sch_dep with
              | .str s => (fromisoformatDate s).getD now
              | _ => now)
          else acc.1
        let td2 : Option String := if optTruthy td1 then td1 else some now
        let row : MemRow :=
          { date := td2.getD now
            train_num := .int train_num
            station := codeS
            scheduled_arrival := pyOrEmpty sch_arr
            actual_arrival := pyOrEmpty act_arr
            arrival_delay_mins :=
              if jTruthy sch_arr && jTruthy act_arr then .delay (jParseDelay sch_arr act_arr)
              else .blank
            scheduled_departure := pyOrEmpty sch_dep
            actual_departure := pyOrEmpty act_dep
            departure_delay_mins :=
              if jTruthy sch_dep && jTruthy act_dep then .delay (jParseDelay sch_dep act_dep)
              else .blank
            status := dictGet kv "status" (.str "")
            source := "amtraker_v3" }
        .ok (td2, acc.2 ++ [row])
      else .ok acc
    | _ => .ok acc
  | _ => .error "AttributeError"

/-- The station loop of one train instance, folded from an initial
`train_date`/rows state. -/
def rtStationsFold (train_num : Nat) (stations : List String) (origin_station now : String)
    (stns : List JVal) (init : Option String × List MemRow) :
    Except String (Option String × List MemRow) :=
  stns.foldlM (rtStationRow train_num stations origin_station now) init

/-- One iteration of the instance loop in `fetch_realtime`: `train_date`
is reset to `None` per instance, rows accumulate across instances. An
instance that is not a dict raises `AttributeError` at `train.get`. -/
def rtInstance (train_num : Nat) (stations : List String) (origin_station now : String)
    (rows : List MemRow) (train : JVal) : Except String (List MemRow) :=
  match train with
  | .obj kv => do
    let stnList ← pyIterate (dictGet kv "stations" (.arr []))
    let res ← rtStationsFold train_num stations origin_station now stnList (none, rows)
    .ok res.2
  | _ => .error "AttributeError"

/-- Embeds `fetch_realtime(train_num, stations)` with the upstream
response as an explicit argument (`now` is today's date rendered
`YYYY-MM-DD`). A transport or JSON-decode failure is caught and yields
`[]`; the remaining body runs outside any handler, so its exceptions
surface as `.error`. -/
def fetch_realtime (train_num : Nat) (stations : List String)
    (resp : Except Unit JVal) (now : String) : Except String (List MemRow) :=
  match resp with
  | .error _ => .ok []
  | .ok data => do
    let trains : JVal ←
      (match data with
        | .arr xs => Except.ok (JVal.arr xs)
        | .obj kvs => Except.ok (dictGet kvs (toString train_num) (.arr []))
        | _ => Except.error "AttributeError")
    if !jTruthy trains then .ok []
    else do
      let origin_station ← pyGetList stations 0
      let instances ← pyIterate trains
      instances.foldlM (rtInstance train_num stations origin_station now) []

/-! ### Historical adapter (`fetch_asmad`)

The HTTP and BeautifulSoup layers are abstracted: `html.parser` is
lenient and total on arbitrary input, so the response is modelled as
`.error` (any exception in the request block, caught and turned into
`[]`) or a list of tables, each table the list of its `tr` rows, each row
the list of its cell (`th`/`td`) texts. `get_text()` on a row is
modelled as the concatenation of its cell texts, `get_text(strip=True)`
on a cell as trimming. -/

/-- A scraped HTML table: rows of cell texts. -/
abbrev HtmlTable := List (List String)

/-- Checks whether `needle` occurs as a contiguous substring of `hay`
(Python's `in` on strings), on character lists. -/
def isPrefixList : List Char → List Char → Bool
  | [], _ => true
  | _ :: _, [] => false
  | a :: as_, b :: bs => a = b && isPrefixList as_ bs

/-- Substring search over the suffixes of the haystack. -/
def strContainsAux (hay needle : List Char) : Bool :=
  match hay with
  | [] => needle.isEmpty
  | _ :: t => isPrefixList needle hay || strContainsAux t needle

/-- Python `needle in hay` for strings. -/
def strContains (hay needle : String) : Bool :=
  strContainsAux hay.toList needle.toList

/-- The scan of `col_index`, carrying the running index. -/
def colIndexAux (keywords : List String) : List String → Nat → Option Nat
  | [], _ => none
  | h :: t, i =>
    if keywords.all (fun k => strContains h k) then some i else colIndexAux keywords t (i + 1)

/-- Embeds the inner `col_index(keywords)` helper: index of the first
header cell containing every keyword as a substring, `None` if there is
none. -/
def col_index (headers : List String) (keywords : List String) : Option Nat :=
  colIndexAux keywords headers 0

/-- Python `a or b` on optional column indices: `None` and `0` are both
falsy, so a preferred match at index `0` falls through to the
fallback. -/
def pythonOrIdx (a b : Option Nat) : Option Nat :=
  match a with
  | some n => if n ≠ 0 then some n else b
  | none => b

/-- The data-table heuristic: the first table whose first `tr` exists and
whose lower-cased header text contains `"station"` together with
`"origin"` or `"train"`. -/
def headerMatchText (row : List String) : Bool :=
  let t := (String.join row).toLower
  strContains t "station" && (strContains t "origin" || strContains t "train")

/-- Scans the tables for the data table. -/
def findDataTable (tables : List HtmlTable) : Option HtmlTable :=
  tables.find? fun t =>
    match t.head? with
    | some h => headerMatchText h
    | none => false

/-- Models `datetime.strptime(s, "%m/%d/%Y")` (date only). -/
def parseMDY4 (s : String) : Option (Nat × Nat × Nat) :=
  match readNum2 1 12 s.toList with
  | none => none
  | some (m, r1) =>
    match expectChar '/' r1 with
    | none => none
    | some r2 =>
      match readNum2 1 31 r2 with
      | none => none
      | some (d, r3) =>
        match expectChar '/' r3 with
        | none => none
        | some r4 =>
          match readNumExact 4 r4 with
          | none => none
          | some (y, r5) =>
            if r5.isEmpty && validYMD y m d then some (y, m, d) else none

/-- Models `datetime.strptime(s, "%m/%d/%y")`: the two-digit year maps to
`2000 + y` for `y ≤ 68` and `1900 + y` otherwise, as `_strptime` does. -/
def parseMDY2 (s : String) : Option (Nat × Nat × Nat) :=
  match readNum2 1 12 s.toList with
  | none => none
  | some (m, r1) =>
    match expectChar '/' r1 with
    | none => none
    | some r2 =>
      match readNum2 1 31 r2 with
      | none => none
      | some (d, r3) =>
        match expectChar '/' r3 with
        | none => none
        | some r4 =>
          match readNumExact 2 r4 with
          | none => none
          | some (y2, r5) =>
            let y := if y2 ≤ 68 then 2000 + y2 else 1900 + y2
            if r5.isEmpty && validYMD y m d then some (y, m, d) else none

/-- Models `datetime.strptime(s, "%Y-%m-%d")` (date only). -/
def parseYMDDash (s : String) : Option (Nat × Nat × Nat) :=
  match readNumExact 4 s.toList with
  | none => none
  | some (y, r1) =>
    match expectChar '-' r1 with
    | none => none
    | some r2 =>
      match readNum2 1 12 r2 with
      | none => none
      | some (m, r3) =>
        match expectChar '-' r3 with
        | none => none
        | some r4 =>
          match readNum2 1 31 r4 with
          | none => none
          | some (d, r5) =>
            if r5.isEmpty && validYMD y m d then some (y, m, d) else none

/-- The origin-date normalization loop of `fetch_asmad`: try
`%m/%d/%Y`, `%m/%d/%y`, `%Y-%m-%d` in that order, render the first
success as `YYYY-MM-DD`; if no format matches, the raw cell string is
used verbatim. -/
def normalize_service_date (raw : String) : String :=
  match parseMDY4 raw with
  | some ymd => renderDate ymd.1 ymd.2.1 ymd.2.2
  | none =>
    match parseMDY2 raw with
    | some ymd => renderDate ymd.1 ymd.2.1 ymd.2.2
    | none =>
      match parseYMDDash raw with
      | some ymd => renderDate ymd.1 ymd.2.1 ymd.2.2
      | none => raw

/-- The guarded cell access `cells[i] if i is not None and i < len(cells)
else ""`, with the raw indexing kept as the possibly-raising
`pyGetList`. -/
def cellAt (cells : List String) (idx : Option Nat) : Except String String :=
  match idx with
  | none => .ok ""
  | some i => if i < cells.length then pyGetList cells i else .ok ""

/-- One iteration of the data-row loop of `fetch_asmad`. -/
def asmadProcessRow (train_num : Nat) (stations : List String)
    (idx_station idx_origin_date idx_sch_arr idx_act_arr idx_sch_dep idx_act_dep
      idx_comments : Option Nat)
    (rows : List MemRow) (rawCells : List String) : Except String (List MemRow) := do
  let cells := rawCells.map String.trim
  if cells.length < 3 then .ok rows
  else do
    let station ← cellAt cells idx_station
    if !stations.contains station then .ok rows
    else do
      let origin_date_raw ← cellAt cells idx_origin_date
      let sch_arr ← cellAt cells idx_sch_arr
      let act_arr ← cellAt cells idx_act_arr
      let sch_dep ← cellAt cells idx_sch_dep
      let act_dep ← cellAt cells idx_act_dep
      let comments ← cellAt cells idx_comments
      let service_date := normalize_service_date origin_date_raw
      let row : MemRow :=
        { date := service_date
          train_num := .int train_num
          station := station
          scheduled_arrival := .str sch_arr
          actual_arrival := .str act_arr
          arrival_delay_mins :=
            if sch_arr != "" && act_arr != "" then .delay (parse_delay_minutes sch_arr act_arr)
            else .blank
          scheduled_departure := .str sch_dep
          actual_departure := .str act_dep
          departure_delay_mins :=
            if sch_dep != "" && act_dep != "" then .delay (parse_delay_minutes sch_dep act_dep)
            else .blank
          status := .str comments
          source := "asmad" }
      .ok (rows ++ [row])

/-- Embeds `fetch_asmad(start_date, end_date, train_num, stations)` with
the upstream response as an explicit argument. The date arguments only
shape the outgoing request, which the response argument stands for. -/
def fetch_asmad (start_date end_date : String) (train_num : Nat) (stations : List String)
    (resp : Except Unit (List HtmlTable)) : Except String (List MemRow) :=
  match resp with
  | .error _ => .ok []
  | .ok tables =>
    if tables.isEmpty then .ok []
    else
      match findDataTable tables with
      | none => .ok []
      | some data_table =>
        let headers := (data_table.headD []).map fun c => c.trim.toLower
        let idx_station := col_index headers ["station"]
        let idx_origin_date := pythonOrIdx (col_index headers ["origin"]) (col_index headers ["date"])
        let idx_sch_arr := col_index headers ["sch", "ar"]
        let idx_act_arr := col_index headers ["act", "ar"]
        let idx_sch_dep := pythonOrIdx (col_index headers ["sch", "dp"]) (col_index headers ["sch", "dep"])
        let idx_act_dep := pythonOrIdx (col_index headers ["act", "dp"]) (col_index headers ["act", "dep"])
        let idx_comments := pythonOrIdx (col_index headers ["comment"]) (col_index headers ["status"])
        (data_table.drop 1).foldlM
          (asmadProcessRow train_num stations idx_station idx_origin_date idx_sch_arr
            idx_act_arr idx_sch_dep idx_act_dep idx_comments) []

/-! ### Reconciliation engine (`run_daily`, `run_backfill`)

The engine is modelled over pure adapter functions: `run_daily` and
`run_backfill` call the adapters and use only their returned row lists,
so a run is a function of those lists, the store, today's date and the
requested date (all dates rendered `YYYY-MM-DD`; comparing the parsed
`--date` with `datetime.now().date()` coincides with string equality of
the canonical renderings). The `Call` trace records each adapter
invocation with its arguments, and `appended` records the rows passed to
`append_rows`, both for specification purposes. -/

/-- The realtime adapter as the engine sees it: train number and station
list to returned rows. -/
abbrev RealtimeFn := Nat → List String → List MemRow

/-- The historical adapter as the engine sees it: start date, end date,
train number and station list to returned rows. -/
abbrev AsmadFn := String → String → Nat → List String → List MemRow

/-- One adapter invocation, with its scoping arguments. -/
inductive Call where
  | realtime (train : Nat)
  | asmad (dateStart dateEnd : String) (train : Nat)
deriving DecidableEq, Repr

/-- Outcome of processing one train: new store, adapter-call trace, and
the batch of rows appended (empty when nothing was appended). -/
structure StepResult where
  store : List StoredRow
  calls : List Call
  appended : List MemRow

/-- The dedup-filter-then-append step shared by every appending branch of
the engine: keep the rows whose key is not yet recorded, append them when
any survive. Returns the new store and the batch actually appended. -/
def filterAppend (store : List StoredRow) (train_num : Nat) (rows : List MemRow) :
    List StoredRow × List MemRow :=
  let new_rows := rows.filter fun r =>
    !date_already_recorded store r.date r.station (.int train_num)
  if !new_rows.isEmpty then (append_rows store new_rows, new_rows) else (store, [])

/-- The per-train body of `run_daily`: skip if all stations are already
recorded for the date; try the realtime adapter only when the date is
today; on a nonempty realtime result filter and append (or report
already-recorded) and stop; otherwise fall back to the historical
adapter scoped to the single date. The filter-and-append step common to
both sources is `filterAppend` above. -/
def processTrain (rtF : RealtimeFn) (asmadF : AsmadFn) (today date_str : String)
    (train_num : Nat) (stations : List String) (store : List StoredRow) : StepResult :=
  if stations.all (fun s => date_already_recorded store date_str s (.int train_num)) then
    ⟨store, [], []⟩
  else
    let rtRows := if date_str = today then rtF train_num stations else []
    let rtCalls := if date_str = today then [Call.realtime train_num] else []
    if !rtRows.isEmpty then
      let p := filterAppend store train_num rtRows
      ⟨p.1, rtCalls, p.2⟩
    else
      let hRows := asmadF date_str date_str train_num stations
      let calls := rtCalls ++ [Call.asmad date_str date_str train_num]
      if !hRows.isEmpty then
        let p := filterAppend store train_num hRows
        ⟨p.1, calls, p.2⟩
      else ⟨store, calls, []⟩

/-- The per-train body of `run_backfill`: one historical fetch over the
whole range, filtered against existing keys and appended. -/
def processTrainBackfill (asmadF : AsmadFn) (startD endD : String)
    (train_num : Nat) (stations : List String) (store : List StoredRow) : StepResult :=
  let rows := asmadF startD endD train_num stations
  if !rows.isEmpty then
    let p := filterAppend store train_num rows
    ⟨p.1, [Call.asmad startD endD train_num], p.2⟩
  else ⟨store, [Call.asmad startD endD train_num], []⟩

/-- The static route configuration, in the dict's insertion order. -/
def TRAIN_CONFIG : List (Nat × List String) := [(53, ["LOR", "SFA"]), (52, ["SFA", "LOR"])]

/-- Outcome of a whole run over the configured trains. -/
structure RunResult where
  store : List StoredRow
  calls : List Call
  batches : List (List MemRow)

/-- Embeds `run_daily` for a resolved target date: the per-train body,
iterated over the route configuration in order. -/
def run_daily (rtF : RealtimeFn) (asmadF : AsmadFn) (today date_str : String)
    (store : List StoredRow) : RunResult :=
  TRAIN_CONFIG.foldl
    (fun acc cfg =>
      let r := processTrain rtF asmadF today date_str cfg.1 cfg.2 acc.store
      ⟨r.store, acc.calls ++ r.calls, acc.batches ++ [r.appended]⟩)
    ⟨store, [], []⟩

/-- Embeds `run_backfill` for a resolved date range (`start = today -
days`, `end = today`, both rendered for the request). -/
def run_backfill (asmadF : AsmadFn) (startD endD : String)
    (store : List StoredRow) : RunResult :=
  TRAIN_CONFIG.foldl
    (fun acc cfg =>
      let r := processTrainBackfill asmadF startD endD cfg.1 cfg.2 acc.store
      ⟨r.store, acc.calls ++ r.calls, acc.batches ++ [r.appended]⟩)
    ⟨store, [], []⟩

/-! ### Specification-side definitions

The following definitions restate conditions from the claims (not from
the code); the theorems below connect them to the embedded program. -/

/-- The signed difference actual − scheduled in seconds after the
normalization the specification describes: when exactly one side carries
a timezone offset, the offset is dropped from that side and both values
are compared naively; otherwise the two instants are compared as they
are. -/
def delaySecondsSpec (sch act : PyDateTime) : Int :=
  if sch.tzOffsetSeconds.isSome ∧ act.tzOffsetSeconds = none then
    naiveSeconds act - naiveSeconds sch
  else if act.tzOffsetSeconds.isSome ∧ sch.tzOffsetSeconds = none then
    naiveSeconds act - naiveSeconds sch
  else
    utcSeconds act - utcSeconds sch

/-- A station entry of the expected shape: a JSON object. -/
def stnIsObj : JVal → Bool
  | .obj _ => true
  | _ => false

/-- A `stations` field of the expected shape: a list of objects. -/
def stnListOk : JVal → Bool
  | .arr xs => xs.all stnIsObj
  | _ => false

/-- A train instance of the expected shape: an object whose `stations`
entry, when present, is a list of objects. -/
def instOk : JVal → Bool
  | .obj kv => stnListOk (dictGet kv "stations" (.arr []))
  | _ => false

/-- A value acceptable as the instance list: either falsy (the code
returns `[]` without touching it) or a list of well-shaped instances. -/
def trainsOk (v : JVal) : Bool :=
  if jTruthy v then
    match v with
    | .arr xs => xs.all instOk
    | _ => false
  else true

/-- A realtime payload of the shape the endpoint documents: a bare list
of train instances, or a mapping whose entry for the train number (when
present and truthy) is a list of instances. -/
def wellShapedPayload (train_num : Nat) : JVal → Bool
  | .arr xs => xs.all instOk
  | .obj kvs => trainsOk (dictGet kvs (toString train_num) (.arr []))
  | _ => false

/-- A station entry that cannot move the derived service date away from
`D`: if it is an object naming the origin station with a truthy scheduled
departure, that departure is a string whose parsed date is `D`. -/
def stationKeepsDate (origin D : String) (s : JVal) : Bool :=
  match s with
  | .obj kv =>
    if jvalEqStr (dictGet kv "code" (.str "")) origin then
      if jTruthy (dictGet kv "schDep" (.str "")) then
        match dictGet kv "schDep" (.str "") with
        | .str dep => fromisoformatDate dep == some D
        | _ => false
      else true
    else true
  | _ => true

/-- A station entry that never triggers service-date derivation: it is
not an origin entry with a truthy scheduled departure. -/
def noOriginDep (origin : String) (s : JVal) : Bool :=
  match s with
  | .obj kv =>
    !(jvalEqStr (dictGet kv "code" (.str "")) origin &&
      jTruthy (dictGet kv "schDep" (.str "")))
  | _ => true

/-- Every row of the batch has a dedup key absent from the given store
state (the store as it was when the batch was filtered). -/
def freshBatch (store : List StoredRow) (batch : List MemRow) : Prop :=
  ∀ r ∈ batch, date_already_recorded store r.date r.station r.train_num = false

/-- The dedup key of a persisted row. -/
def storedKey (r : StoredRow) : String × String × String :=
  (r.date, r.station, r.train_num)

/-! ### Concrete inputs used by witnesses and counterexamples -/

/-- An adapter that always reports no data. -/
def emptyRtF : RealtimeFn := fun _ _ => []

/-- A historical adapter that always reports no data. -/
def emptyAsmadF : AsmadFn := fun _ _ _ _ => []

/-- A sample freshly fetched row for train 53 at LOR. -/
def sampleRow : MemRow :=
  { date := "2026-02-10"
    train_num := .int 53
    station := "LOR"
    scheduled_arrival := .str ""
    actual_arrival := .str ""
    arrival_delay_mins := .blank
    scheduled_departure := .str "2026-02-10T16:00:00-05:00"
    actual_departure := .str "2026-02-10T16:05:00-05:00"
    departure_delay_mins := .delay (some 5)
    status := .str "Departed"
    source := "amtraker_v3" }

/-- A realtime payload whose two active instances of train 53 both report
the origin station LOR with the same scheduled departure: both produce
the same dedup key. -/
def dupPayload : JVal :=
  .obj [("53", .arr [
    .obj [("stations", .arr [
      .obj [("code", .str "LOR"), ("schDep", .str "2026-02-10T08:00:00")]])],
    .obj [("stations", .arr [
      .obj [("code", .str "LOR"), ("schDep", .str "2026-02-10T08:00:00")]])]])]

/-- The rows `fetch_realtime` produces from `dupPayload`. -/
def dupRows : List MemRow :=
  match fetch_realtime 53 ["LOR", "SFA"] (.ok dupPayload) "2026-02-10" with
  | .ok rows => rows
  | .error _ => []

/-- A realtime adapter that returns the duplicate-key rows for train 53. -/
def dupRtF : RealtimeFn := fun t _ => if t == 53 then dupRows else []

/-- A realtime payload for train 53 listing SFA before the origin LOR in
one instance; the origin's scheduled departure parses to 2026-02-09. -/
def outOfOrderPayload : JVal :=
  .obj [("53", .arr [
    .obj [("stations", .arr [
      .obj [("code", .str "SFA"), ("schArr", .str "2026-02-10T09:00:00+00:00")],
      .obj [("code", .str "LOR"), ("schDep", .str "2026-02-09T18:30:00")]])]])]

/-- The origin entry of a well-ordered instance of train 53. -/
def c5kv0 : List (String × JVal) :=
  [("code", .str "LOR"), ("schDep", .str "2026-02-09T18:30:00")]

/-- The stations following the origin in that instance. -/
def c5rest : List JVal := [.obj [("code", .str "SFA")]]

/-- The row the station loop produces from the origin entry `c5kv0`. -/
def c5rowLOR : MemRow :=
  { date := "2026-02-09"
    train_num := .int 53
    station := "LOR"
    scheduled_arrival := .str ""
    actual_arrival := .str ""
    arrival_delay_mins := .blank
    scheduled_departure := .str "2026-02-09T18:30:00"
    actual_departure := .str ""
    departure_delay_mins := .blank
    status := .str ""
    source := "amtraker_v3" }

/-- The row the station loop produces from the SFA entry of `c5rest`. -/
def c5rowSFA : MemRow :=
  { date := "2026-02-09"
    train_num := .int 53
    station := "SFA"
    scheduled_arrival := .str ""
    actual_arrival := .str ""
    arrival_delay_mins := .blank
    scheduled_departure := .str ""
    actual_departure := .str ""
    departure_delay_mins := .blank
    status := .str ""
    source := "amtraker_v3" }

/-! ## Theorems -/

/-- The result of `pyRoundDiv60` is a nearest integer to `delta / 60`
(distance of the represented minute value from the exact one is at most
half a minute), and an exact tie is resolved to an even integer. -/
theorem pyRoundDiv60_nearest (delta : Int) :
    (60 * pyRoundDiv60 delta - delta).natAbs ≤ 30 ∧
      ((60 * pyRoundDiv60 delta - delta).natAbs = 30 → pyRoundDiv60 delta % 2 = 0) := by
  unfold pyRoundDiv60
  split_ifs <;> omega

/-- Dropping the offset does not change the naive reading. -/
theorem naiveSeconds_strip (dt : PyDateTime) :
    naiveSeconds { dt with tzOffsetSeconds := none } = naiveSeconds dt := rfl

/-- C1 (amended): for every pair of nonempty timestamp strings that each
parse under one of the formats the code accepts — ISO-8601 with a
*mandatory* UTC offset, or slash-date plus 24-hour time without offset —
`parse_delay_minutes` returns a nearest integer (ties to even) to the
signed difference actual − scheduled in minutes, where the difference
drops the timezone offset from whichever side carries one when exactly
one side does. -/
theorem C1_delay_rounding (scheduled actual : String)
    (hs : scheduled ≠ "") (ha : actual ≠ "") (ds da : PyDateTime)
    (hds : parseWithFormats scheduled = some ds)
    (hda : parseWithFormats actual = some da) :
    ∃ r, parse_delay_minutes scheduled actual = some r ∧
      (60 * r - delaySecondsSpec ds da).natAbs ≤ 30 ∧
      ((60 * r - delaySecondsSpec ds da).natAbs = 30 → r % 2 = 0) := by
  have hmain : parse_delay_minutes scheduled actual
      = some (pyRoundDiv60 (delaySecondsSpec ds da)) := by
    unfold parse_delay_minutes
    rw [if_neg (by simp [hs, ha]), hds, hda]
    dsimp only
    congr 2
    unfold delaySecondsSpec
    rcases hS : ds.tzOffsetSeconds with _ | s <;> rcases hA : da.tzOffsetSeconds with _ | a <;>
      simp [hS, hA, utcSeconds, naiveSeconds_strip]
  exact ⟨_, hmain, pyRoundDiv60_nearest (delaySecondsSpec ds da)⟩

/-- Witness for `C1_delay_rounding` at the offset-carrying variant of the
specification's delay example: both sides parse, the result is defined
and within half a minute of the true seven-minute difference. -/
theorem C1_delay_rounding_witness :
    ∃ r, parse_delay_minutes "2026-02-10T08:00:00+00:00" "2026-02-10T08:07:00+00:00" = some r ∧
      (60 * r - delaySecondsSpec ⟨2026, 2, 10, 8, 0, 0, some 0⟩
          ⟨2026, 2, 10, 8, 7, 0, some 0⟩).natAbs ≤ 30 ∧
      ((60 * r - delaySecondsSpec ⟨2026, 2, 10, 8, 0, 0, some 0⟩
          ⟨2026, 2, 10, 8, 7, 0, some 0⟩).natAbs = 30 → r % 2 = 0) :=
  C1_delay_rounding _ _ (by decide) (by decide) _ _ (by decide) (by decide)

/-- Counterexample to C1 as stated: an ISO-8601 string without an offset
is *not* an accepted format (the `%z` directive requires an offset), so
the claim's example `computeDelayMinutes("2026-02-10T08:00:00",
"2026-02-10T08:07:00") == 7` fails — the call returns `None`. -/
theorem C1_cex :
    parse_delay_minutes "2026-02-10T08:00:00" "2026-02-10T08:07:00" ≠ some 7 := by
  decide

/-- C7: `parse_delay_minutes` returns `None` whenever either input is
empty or either input fails all accepted formats (and, being a total
function of its inputs with every internal exception handled, it never
raises). -/
theorem C7_none_on_failure (scheduled actual : String)
    (h : scheduled = "" ∨ actual = "" ∨ parseWithFormats scheduled = none ∨
      parseWithFormats actual = none) :
    parse_delay_minutes scheduled actual = none := by
  unfold parse_delay_minutes
  by_cases hc : scheduled = "" ∨ actual = ""
  · rw [if_pos hc]
  · rw [if_neg hc]
    rcases h with h | h | h | h
    · exact absurd (Or.inl h) hc
    · exact absurd (Or.inr h) hc
    · rw [h]
    · rw [h]
      rcases parseWithFormats scheduled with _ | d <;> rfl

/-- Witness for `C7_none_on_failure` at the specification's example
`computeDelayMinutes("2026-02-10T08:00:00", "") is absent`. -/
theorem C7_none_on_failure_witness :
    parse_delay_minutes "2026-02-10T08:00:00" "" = none :=
  C7_none_on_failure _ _ (Or.inr (Or.inl rfl))

/-- C8: the origin-date cell is normalized by trying `MM/DD/YYYY`,
`MM/DD/YY`, `YYYY-MM-DD` in this order, the first success rendered as
`YYYY-MM-DD`; when no format matches the raw cell passes through
verbatim; in particular `"02/10/2026"` normalizes to `"2026-02-10"`. -/
theorem C8_origin_date_normalization :
    normalize_service_date "02/10/2026" = "2026-02-10" ∧
    (∀ raw y m d, parseMDY4 raw = some (y, m, d) →
      normalize_service_date raw = renderDate y m d) ∧
    (∀ raw y m d, parseMDY4 raw = none → parseMDY2 raw = some (y, m, d) →
      normalize_service_date raw = renderDate y m d) ∧
    (∀ raw y m d, parseMDY4 raw = none → parseMDY2 raw = none →
      parseYMDDash raw = some (y, m, d) → normalize_service_date raw = renderDate y m d) ∧
    (∀ raw, parseMDY4 raw = none → parseMDY2 raw = none → parseYMDDash raw = none →
      normalize_service_date raw = raw) := by
  refine ⟨by decide, ?_, ?_, ?_, ?_⟩
  · intro raw y m d h1
    unfold normalize_service_date
    rw [h1]
  · intro raw y m d h1 h2
    unfold normalize_service_date
    rw [h1, h2]
  · intro raw y m d h1 h2 h3
    unfold normalize_service_date
    rw [h1, h2, h3]
  · intro raw h1 h2 h3
    unfold normalize_service_date
    rw [h1, h2, h3]

/-- Witness for `C8_origin_date_normalization`: the two-digit-year and
pass-through behaviours at concrete cells. -/
theorem C8_origin_date_normalization_witness :
    normalize_service_date "02/10/26" = "2026-02-10" ∧
    normalize_service_date "bogusdate" = "bogusdate" :=
  ⟨C8_origin_date_normalization.2.2.1 "02/10/26" 2026 2 10 (by decide) (by decide),
   C8_origin_date_normalization.2.2.2.2 "bogusdate" (by decide) (by decide) (by decide)⟩

/-- C9: a preferred keyword set matching the first header cell yields
column index 0, which is falsy in Python, so the `or`-chained resolution
falls through to the fallback keyword set's own result. -/
theorem C9_or_chain_head_match (h0 : String) (rest : List String) (pref fb : List String)
    (hmatch : pref.all (fun k => strContains h0 k) = true) :
    pythonOrIdx (col_index (h0 :: rest) pref) (col_index (h0 :: rest) fb)
      = col_index (h0 :: rest) fb := by
  have h1 : col_index (h0 :: rest) pref = some 0 := by
    unfold col_index colIndexAux
    rw [if_pos hmatch]
  rw [h1]
  rfl

/-- Witness for `C9_or_chain_head_match` at a header row whose first cell
`"origin date"` matches the preferred set `["origin"]`: the resolved
index is the fallback set's own match (here also index 0, since the same
cell contains `"date"`), exhibited concretely. -/
theorem C9_or_chain_head_match_witness :
    pythonOrIdx (col_index ["origin date", "station"] ["origin"])
        (col_index ["origin date", "station"] ["date"])
      = col_index ["origin date", "station"] ["date"] ∧
    col_index ["origin date", "station"] ["date"] = some 0 :=
  ⟨C9_or_chain_head_match "origin date" ["station"] ["origin"] ["date"] (by decide),
   by decide⟩

/-- C10: the dedup existence check compares train numbers via their
decimal rendering on both sides, so a row appended with an integer train
number is found again whether the query passes the integer or its
string rendering — deduplication survives the CSV round trip that turns
every stored field into a string. -/
theorem C10_dedup_str_roundtrip (store : List StoredRow) (r : MemRow) (n : Int)
    (h : r.train_num = PyVal.int n) :
    date_already_recorded (append_rows store [r]) r.date r.station (PyVal.int n) = true ∧
    date_already_recorded (append_rows store [r]) r.date r.station
      (PyVal.str (toString n)) = true := by
  constructor <;>
    simp [date_already_recorded, append_rows, serializeRow, pyStr, h]

/-- Witness for `C10_dedup_str_roundtrip`: the sample row for train 53 is
found under both the integer query `53` and the string query `"53"`. -/
theorem C10_dedup_str_roundtrip_witness :
    date_already_recorded (append_rows [] [sampleRow]) sampleRow.date sampleRow.station
      (PyVal.int 53) = true ∧
    date_already_recorded (append_rows [] [sampleRow]) sampleRow.date sampleRow.station
      (PyVal.str (toString (53 : Int))) = true :=
  C10_dedup_str_roundtrip [] sampleRow 53 rfl

/-- Unfolding lemma for `trainsOk` that keeps the inner match intact. -/
theorem trainsOk_eq (v : JVal) :
    trainsOk v = if jTruthy v then
      (match v with
        | JVal.arr xs => xs.all instOk
        | _ => false)
    else true := rfl

/-- Binding a successful `Except` computation just applies the
continuation. -/
theorem ok_bind {α β : Type} (a : α) (f : α → Except String β) :
    (Except.ok a >>= f) = f a := rfl

/-- A fold in the `Except` monad whose step never fails on the list's
elements produces a value. -/
theorem foldlM_ok {α β : Type} (f : β → α → Except String β) (l : List α)
    (h : ∀ a ∈ l, ∀ b, ∃ b', f b a = Except.ok b') :
    ∀ init, ∃ out, l.foldlM f init = Except.ok out := by
  induction l with
  | nil => exact fun init => ⟨init, rfl⟩
  | cons a t ih =>
    intro init
    obtain ⟨b', hb⟩ := h a (List.mem_cons_self a t) init
    obtain ⟨out, hout⟩ := ih (fun x hx b => h x (List.mem_cons_of_mem a hx) b) b'
    refine ⟨out, ?_⟩
    rw [List.foldlM_cons, hb, ok_bind]
    exact hout

/-- The guarded cell access of `fetch_asmad` never raises: a cell is read
only under its bounds check. -/
theorem cellAt_ok (cells : List String) (idx : Option Nat) :
    ∃ s, cellAt cells idx = Except.ok s := by
  unfold cellAt
  match idx with
  | none => exact ⟨"", rfl⟩
  | some i =>
    dsimp only
    by_cases h : i < cells.length
    · rw [if_pos h]
      unfold pyGetList
      rw [List.get?_eq_get h]
      exact ⟨_, rfl⟩
    · rw [if_neg h]
      exact ⟨"", rfl⟩

/-- One data-row iteration of `fetch_asmad` never raises, whatever the
resolved column indices and cell contents are. -/
theorem asmadProcessRow_ok (train_num : Nat) (stations : List String)
    (i1 i2 i3 i4 i5 i6 i7 : Option Nat) (rows : List MemRow) (rawCells : List String) :
    ∃ out, asmadProcessRow train_num stations i1 i2 i3 i4 i5 i6 i7 rows rawCells
      = Except.ok out := by
  unfold asmadProcessRow
  by_cases h3 : (rawCells.map String.trim).length < 3
  · rw [if_pos h3]
    exact ⟨rows, rfl⟩
  · rw [if_neg h3]
    obtain ⟨s1, e1⟩ := cellAt_ok (rawCells.map String.trim) i1
    rw [e1, ok_bind]
    by_cases hstat : (!stations.contains s1) = true
    · rw [if_pos hstat]
      exact ⟨rows, rfl⟩
    · rw [if_neg hstat]
      obtain ⟨s2, e2⟩ := cellAt_ok (rawCells.map String.trim) i2
      obtain ⟨s3, e3⟩ := cellAt_ok (rawCells.map String.trim) i3
      obtain ⟨s4, e4⟩ := cellAt_ok (rawCells.map String.trim) i4
      obtain ⟨s5, e5⟩ := cellAt_ok (rawCells.map String.trim) i5
      obtain ⟨s6, e6⟩ := cellAt_ok (rawCells.map String.trim) i6
      obtain ⟨s7, e7⟩ := cellAt_ok (rawCells.map String.trim) i7
      rw [e2, ok_bind, e3, ok_bind, e4, ok_bind, e5, ok_bind, e6, ok_bind, e7, ok_bind]
      exact ⟨_, rfl⟩

/-- A station entry of the expected shape never makes the station loop
raise. -/
theorem rtStationRow_ok (t : Nat) (sts : List String) (origin now : String)
    (acc : Option String × List MemRow) (stn : JVal) (h : stnIsObj stn = true) :
    ∃ out, rtStationRow t sts origin now acc stn = Except.ok out := by
  cases stn with
  | obj kv =>
    unfold rtStationRow
    dsimp only
    cases hc : dictGet kv "code" (.str "") with
    | str cs =>
      dsimp only
      by_cases hm : sts.contains cs = true
      · rw [if_pos hm]
        exact ⟨_, rfl⟩
      · rw [if_neg hm]
        exact ⟨acc, rfl⟩
    | null => exact ⟨acc, rfl⟩
    | bool b => exact ⟨acc, rfl⟩
    | num n => exact ⟨acc, rfl⟩
    | arr xs => exact ⟨acc, rfl⟩
    | obj kvs => exact ⟨acc, rfl⟩
  | null => simp [stnIsObj] at h
  | bool b => simp [stnIsObj] at h
  | num n => simp [stnIsObj] at h
  | str s => simp [stnIsObj] at h
  | arr xs => simp [stnIsObj] at h

/-- A train instance of the expected shape never makes the instance loop
raise. -/
theorem rtInstance_ok (t : Nat) (sts : List String) (origin now : String)
    (rows : List MemRow) (train : JVal) (h : instOk train = true) :
    ∃ out, rtInstance t sts origin now rows train = Except.ok out := by
  cases train with
  | obj kv =>
    have hs : stnListOk (dictGet kv "stations" (.arr [])) = true := by
      simpa [instOk] using h
    unfold rtInstance
    dsimp only
    cases hval : dictGet kv "stations" (.arr []) with
    | arr xs =>
      rw [hval] at hs
      simp only [stnListOk, List.all_eq_true] at hs
      obtain ⟨out, hout⟩ := foldlM_ok (rtStationRow t sts origin now) xs
        (fun a ha b => rtStationRow_ok t sts origin now b a (hs a ha)) (none, rows)
      refine ⟨out.2, ?_⟩
      rw [show pyIterate (JVal.arr xs) = Except.ok xs from rfl, ok_bind]
      unfold rtStationsFold
      rw [hout, ok_bind]
    | null => rw [hval] at hs; simp [stnListOk] at hs
    | bool b => rw [hval] at hs; simp [stnListOk] at hs
    | num n => rw [hval] at hs; simp [stnListOk] at hs
    | str s => rw [hval] at hs; simp [stnListOk] at hs
    | obj kvs => rw [hval] at hs; simp [stnListOk] at hs
  | null => simp [instOk] at h
  | bool b => simp [instOk] at h
  | num n => simp [instOk] at h
  | str s => simp [instOk] at h
  | arr xs => simp [instOk] at h

/-- C4 (amended): transport and decode failures degrade to an empty
result in both adapters, and neither adapter raises on its expected
payload shapes — but `fetch_realtime` is *not* exception-free on
arbitrary JSON (see the counterexample): only well-shaped payloads are
safe, while `fetch_asmad` never raises for any response. -/
theorem C4_adapter_boundaries :
    (∀ t sts now, fetch_realtime t sts (.error ()) now = .ok []) ∧
    (∀ t sts now data, sts ≠ [] → wellShapedPayload t data = true →
      ∃ rows, fetch_realtime t sts (.ok data) now = .ok rows) ∧
    (∀ s e t sts resp, ∃ rows, fetch_asmad s e t sts resp = .ok rows) ∧
    (∀ s e t sts, fetch_asmad s e t sts (.error ()) = .ok []) := by
  refine ⟨fun t sts now => rfl, ?_, ?_, fun s e t sts => rfl⟩
  · intro t sts now data hsts hws
    unfold fetch_realtime
    cases data with
    | arr xs =>
      simp only [ok_bind]
      by_cases htr : (!jTruthy (JVal.arr xs)) = true
      · rw [if_pos htr]
        exact ⟨[], rfl⟩
      · rw [if_neg htr]
        cases sts with
        | nil => exact absurd rfl hsts
        | cons s0 rest =>
          rw [show pyGetList (s0 :: rest) 0 = Except.ok s0 from rfl, ok_bind,
            show pyIterate (JVal.arr xs) = Except.ok xs from rfl, ok_bind]
          have hall : ∀ a ∈ xs, instOk a = true := by
            simpa [wellShapedPayload, List.all_eq_true] using hws
          exact foldlM_ok _ xs
            (fun a ha b => rtInstance_ok t (s0 :: rest) s0 now b a (hall a ha)) []
    | obj kvs =>
      have hws' : trainsOk (dictGet kvs (toString t) (.arr [])) = true := by
        simpa [wellShapedPayload] using hws
      dsimp only
      cases hval : dictGet kvs (toString t) (.arr []) with
      | arr xs =>
        rw [hval] at hws'
        simp only [ok_bind]
        by_cases htr : (!jTruthy (JVal.arr xs)) = true
        · rw [if_pos htr]
          exact ⟨[], rfl⟩
        · rw [if_neg htr]
          have htru : jTruthy (JVal.arr xs) = true := by
            revert htr
            cases jTruthy (JVal.arr xs) <;> simp
          have hall : ∀ a ∈ xs, instOk a = true := by
            rw [trainsOk_eq, if_pos htru] at hws'
            simpa [List.all_eq_true] using hws'
          cases sts with
          | nil => exact absurd rfl hsts
          | cons s0 rest =>
            rw [show pyGetList (s0 :: rest) 0 = Except.ok s0 from rfl, ok_bind,
              show pyIterate (JVal.arr xs) = Except.ok xs from rfl, ok_bind]
            exact foldlM_ok _ xs
              (fun a ha b => rtInstance_ok t (s0 :: rest) s0 now b a (hall a ha)) []
      | null =>
        simp only [ok_bind]
        rw [if_pos (by rfl)]
        exact ⟨[], rfl⟩
      | bool b =>
        rw [hval] at hws'
        simp only [ok_bind]
        by_cases htr : (!jTruthy (JVal.bool b)) = true
        · rw [if_pos htr]
          exact ⟨[], rfl⟩
        · have htru : jTruthy (JVal.bool b) = true := by
            revert htr
            cases jTruthy (JVal.bool b) <;> simp
          rw [trainsOk_eq, if_pos htru] at hws'
          exact Bool.noConfusion hws'
      | num n =>
        rw [hval] at hws'
        simp only [ok_bind]
        by_cases htr : (!jTruthy (JVal.num n)) = true
        · rw [if_pos htr]
          exact ⟨[], rfl⟩
        · have htru : jTruthy (JVal.num n) = true := by
            revert htr
            cases jTruthy (JVal.num n) <;> simp
          rw [trainsOk_eq, if_pos htru] at hws'
          exact Bool.noConfusion hws'
      | str s =>
        rw [hval] at hws'
        simp only [ok_bind]
        by_cases htr : (!jTruthy (JVal.str s)) = true
        · rw [if_pos htr]
          exact ⟨[], rfl⟩
        · have htru : jTruthy (JVal.str s) = true := by
            revert htr
            cases jTruthy (JVal.str s) <;> simp
          rw [trainsOk_eq, if_pos htru] at hws'
          exact Bool.noConfusion hws'
      | obj kvs2 =>
        rw [hval] at hws'
        simp only [ok_bind]
        by_cases htr : (!jTruthy (JVal.obj kvs2)) = true
        · rw [if_pos htr]
          exact ⟨[], rfl⟩
        · have htru : jTruthy (JVal.obj kvs2) = true := by
            revert htr
            cases jTruthy (JVal.obj kvs2) <;> simp
          rw [trainsOk_eq, if_pos htru] at hws'
          exact Bool.noConfusion hws'
    | null => simp [wellShapedPayload] at hws
    | bool b => simp [wellShapedPayload] at hws
    | num n => simp [wellShapedPayload] at hws
    | str s => simp [wellShapedPayload] at hws
  · intro s e t sts resp
    unfold fetch_asmad
    cases resp with
    | error u => exact ⟨[], rfl⟩
    | ok tables =>
      dsimp only
      by_cases hemp : tables.isEmpty = true
      · rw [if_pos hemp]
        exact ⟨[], rfl⟩
      · rw [if_neg hemp]
        cases hfind : findDataTable tables with
        | none => exact ⟨[], rfl⟩
        | some data_table =>
          dsimp only
          exact foldlM_ok _ _
            (fun a _ b => asmadProcessRow_ok t sts _ _ _ _ _ _ _ b a) []

/-- Witness for `C4_adapter_boundaries` at concrete inputs: a transport
error degrades to `[]`, a well-shaped payload is processed without
raising, and the historical adapter accepts an arbitrary table. -/
theorem C4_adapter_boundaries_witness :
    fetch_realtime 53 ["LOR", "SFA"] (.error ()) "2026-02-10" = .ok [] ∧
    (∃ rows, fetch_realtime 53 ["LOR", "SFA"] (.ok outOfOrderPayload) "2026-02-10" = .ok rows) ∧
    (∃ rows, fetch_asmad "02/03/2026" "02/10/2026" 53 ["LOR", "SFA"]
      (.ok [[["Station", "Origin Date"], ["LOR"]]]) = .ok rows) ∧
    fetch_asmad "02/03/2026" "02/10/2026" 53 ["LOR", "SFA"] (.error ()) = .ok [] :=
  ⟨C4_adapter_boundaries.1 53 ["LOR", "SFA"] "2026-02-10",
   C4_adapter_boundaries.2.1 53 ["LOR", "SFA"] "2026-02-10" outOfOrderPayload
     (by decide) (by decide),
   C4_adapter_boundaries.2.2.1 "02/03/2026" "02/10/2026" 53 ["LOR", "SFA"]
     (.ok [[["Station", "Origin Date"], ["LOR"]]]),
   C4_adapter_boundaries.2.2.2 "02/03/2026" "02/10/2026" 53 ["LOR", "SFA"]⟩

/-- Counterexample to C4 as stated: the payload `5` is valid JSON, yet
`data.get` on it — executed outside the adapter's `try` block — raises
`AttributeError`, which propagates past the adapter's boundary. -/
theorem C4_cex :
    fetch_realtime 53 ["LOR", "SFA"] (.ok (.num 5)) "2026-02-10"
      = .error "AttributeError" := rfl

/-- An empty fold returns its initial state. -/
theorem rtStationsFold_nil (t : Nat) (sts : List String) (origin now : String)
    (init : Option String × List MemRow) :
    rtStationsFold t sts origin now [] init = Except.ok init := rfl

/-- Unfolding one station step of the fold. -/
theorem rtStationsFold_cons (t : Nat) (sts : List String) (origin now : String)
    (a : JVal) (l : List JVal) (init : Option String × List MemRow) :
    rtStationsFold t sts origin now (a :: l) init
      = rtStationRow t sts origin now init a >>= fun st =>
          rtStationsFold t sts origin now l st := by
  unfold rtStationsFold
  rw [List.foldlM_cons]

/-- A rendered date is never the empty string. -/
theorem renderDate_ne_empty (y m d : Nat) : renderDate y m d ≠ "" := by
  intro h
  have hlen : (renderDate y m d).length = 0 := by rw [h]; rfl
  rw [renderDate] at hlen
  rw [String.length_append, String.length_append, String.length_append,
    String.length_append] at hlen
  have h1 : ("-" : String).length = 1 := rfl
  omega

/-- A successful `fromisoformatDate` result is a nonempty string. -/
theorem fromisoformatDate_ne_empty {s D : String} (h : fromisoformatDate s = some D) :
    D ≠ "" := by
  unfold fromisoformatDate at h
  split at h
  · split at h
    · dsimp only at h
      split at h
      · exact (Option.some.inj h) ▸ renderDate_ne_empty _ _ _
      · exact Option.noConfusion h
    · exact Option.noConfusion h
  · exact Option.noConfusion h

/-- Once the mutable `train_date` holds `D` (nonempty), a station entry
that keeps the date leaves it at `D`, and any row it emits carries `D`
(or was already present). -/
theorem rtStationRow_keeps (t : Nat) (sts : List String) (origin now D : String)
    (hD : D ≠ "") (rows : List MemRow) (s : JVal)
    (hs : stationKeepsDate origin D s = true) :
    (∃ e, rtStationRow t sts origin now (some D, rows) s = .error e) ∨
    (∃ rows', rtStationRow t sts origin now (some D, rows) s = .ok (some D, rows') ∧
      ∀ r ∈ rows', r ∈ rows ∨ r.date = D) := by
  have hDtruthy : optTruthy (some D) = true := by
    simp [optTruthy, hD]
  cases s with
  | obj kv =>
    right
    unfold stationKeepsDate at hs
    dsimp only at hs
    unfold rtStationRow
    dsimp only
    cases hc : dictGet kv "code" (.str "") with
    | str cs =>
      rw [hc] at hs
      dsimp only
      by_cases hm : sts.contains cs = true
      · rw [if_pos hm]
        by_cases hcond : (decide (cs = origin) && jTruthy (dictGet kv "schDep" (.str ""))) = true
        · -- an origin entry with a truthy scheduled departure: it re-derives D
          have hcs : cs = origin := by
            have := (Bool.and_eq_true _ _).mp hcond
            exact of_decide_eq_true this.1
          have hdep : jTruthy (dictGet kv "schDep" (.str "")) = true := by
            have := (Bool.and_eq_true _ _).mp hcond
            exact this.2
          have hEq : jvalEqStr (JVal.str cs) origin = true := by
            simp [jvalEqStr, hcs]
          rw [if_pos hEq, if_pos hdep] at hs
          cases hd : dictGet kv "schDep" (.str "") with
          | str dep =>
            rw [hd] at hs hcond
            have hiso : fromisoformatDate dep = some D := by
              simpa using hs
            rw [if_pos hcond]
            dsimp only
            rw [hiso]
            dsimp only [Option.getD]
            rw [if_pos hDtruthy]
            refine ⟨_, rfl, ?_⟩
            intro r hr
            rcases List.mem_append.mp hr with h1 | h1
            · exact Or.inl h1
            · right
              rcases List.mem_singleton.mp h1 with rfl
              rfl
          | null => rw [hd] at hs; exact Bool.noConfusion hs
          | bool b => rw [hd] at hs; exact Bool.noConfusion hs
          | num n => rw [hd] at hs; exact Bool.noConfusion hs
          | arr xs => rw [hd] at hs; exact Bool.noConfusion hs
          | obj kvs => rw [hd] at hs; exact Bool.noConfusion hs
        · -- not an origin/schDep entry: the date is carried over
          rw [if_neg hcond]
          rw [if_pos hDtruthy]
          refine ⟨_, rfl, ?_⟩
          intro r hr
          rcases List.mem_append.mp hr with h1 | h1
          · exact Or.inl h1
          · right
            rcases List.mem_singleton.mp h1 with rfl
            rfl
      · rw [if_neg hm]
        exact ⟨rows, rfl, fun r hr => Or.inl hr⟩
    | null => exact ⟨rows, rfl, fun r hr => Or.inl hr⟩
    | bool b => exact ⟨rows, rfl, fun r hr => Or.inl hr⟩
    | num n => exact ⟨rows, rfl, fun r hr => Or.inl hr⟩
    | arr xs => exact ⟨rows, rfl, fun r hr => Or.inl hr⟩
    | obj kvs => exact ⟨rows, rfl, fun r hr => Or.inl hr⟩
  | null => exact Or.inl ⟨_, rfl⟩
  | bool b => exact Or.inl ⟨_, rfl⟩
  | num n => exact Or.inl ⟨_, rfl⟩
  | str s => exact Or.inl ⟨_, rfl⟩
  | arr xs => exact Or.inl ⟨_, rfl⟩

/-- Folding date-keeping entries from a state that already holds `D`
preserves `D` and stamps every new row with it. -/
theorem rtFold_keeps (t : Nat) (sts : List String) (origin now D : String)
    (hD : D ≠ "") (stns : List JVal)
    (hst : ∀ s ∈ stns, stationKeepsDate origin D s = true) :
    ∀ rows0 out, rtStationsFold t sts origin now stns (some D, rows0) = Except.ok out →
      out.1 = some D ∧ ∀ r ∈ out.2, r ∈ rows0 ∨ r.date = D := by
  induction stns with
  | nil =>
    intro rows0 out h
    rw [rtStationsFold_nil] at h
    cases h
    exact ⟨rfl, fun r hr => Or.inl hr⟩
  | cons a as ih =>
    intro rows0 out h
    rw [rtStationsFold_cons] at h
    rcases rtStationRow_keeps t sts origin now D hD rows0 a
        (hst a (List.mem_cons_self a as)) with ⟨e, he⟩ | ⟨rows', hok, hprop⟩
    · rw [he] at h
      exact Except.noConfusion h
    · rw [hok, ok_bind] at h
      obtain ⟨h1, h2⟩ := ih (fun s hsm => hst s (List.mem_cons_of_mem a hsm)) rows' out h
      refine ⟨h1, fun r hr => ?_⟩
      rcases h2 r hr with hmem | hdate
      · exact hprop r hmem
      · exact Or.inr hdate

/-- A station entry that never triggers derivation leaves the
`train_date` state in `{None, now}` and stamps any emitted row with the
current date. -/
theorem rtStationRow_now (t : Nat) (sts : List String) (origin now : String)
    (hnow : now ≠ "") (td : Option String) (htd : td = none ∨ td = some now)
    (rows : List MemRow) (s : JVal) (hs : noOriginDep origin s = true) :
    (∃ e, rtStationRow t sts origin now (td, rows) s = .error e) ∨
    (∃ td' rows', rtStationRow t sts origin now (td, rows) s = .ok (td', rows') ∧
      (td' = none ∨ td' = some now) ∧ ∀ r ∈ rows', r ∈ rows ∨ r.date = now) := by
  cases s with
  | obj kv =>
    right
    unfold noOriginDep at hs
    dsimp only at hs
    unfold rtStationRow
    dsimp only
    cases hc : dictGet kv "code" (.str "") with
    | str cs =>
      rw [hc] at hs
      dsimp only
      by_cases hm : sts.contains cs = true
      · rw [if_pos hm]
        have hcond : (decide (cs = origin) && jTruthy (dictGet kv "schDep" (.str ""))) = true
            → False := by
          intro hcnd
          have h1 := (Bool.and_eq_true _ _).mp hcnd
          have hcs : cs = origin := of_decide_eq_true h1.1
          rw [Bool.not_eq_true', Bool.and_eq_false_iff] at hs
          rcases hs with hs | hs
          · rw [jvalEqStr] at hs
            simp [hcs] at hs
          · rw [hs] at h1
            exact Bool.noConfusion h1.2
        rw [if_neg hcond]
        have htd2 : (if optTruthy td = true then td else some now) = some now := by
          rcases htd with rfl | rfl
          · rfl
          · rw [if_pos (by simp [optTruthy, hnow])]
        rw [htd2]
        refine ⟨some now, _, rfl, Or.inr rfl, ?_⟩
        intro r hr
        rcases List.mem_append.mp hr with h1 | h1
        · exact Or.inl h1
        · right
          rcases List.mem_singleton.mp h1 with rfl
          rfl
      · rw [if_neg hm]
        exact ⟨td, rows, rfl, htd, fun r hr => Or.inl hr⟩
    | null => exact ⟨td, rows, rfl, htd, fun r hr => Or.inl hr⟩
    | bool b => exact ⟨td, rows, rfl, htd, fun r hr => Or.inl hr⟩
    | num n => exact ⟨td, rows, rfl, htd, fun r hr => Or.inl hr⟩
    | arr xs => exact ⟨td, rows, rfl, htd, fun r hr => Or.inl hr⟩
    | obj kvs => exact ⟨td, rows, rfl, htd, fun r hr => Or.inl hr⟩
  | null => exact Or.inl ⟨_, rfl⟩
  | bool b => exact Or.inl ⟨_, rfl⟩
  | num n => exact Or.inl ⟨_, rfl⟩
  | str s => exact Or.inl ⟨_, rfl⟩
  | arr xs => exact Or.inl ⟨_, rfl⟩

/-- Folding derivation-free entries stamps every new row with the
current date. -/
theorem rtFold_now (t : Nat) (sts : List String) (origin now : String)
    (hnow : now ≠ "") (stns : List JVal)
    (hst : ∀ s ∈ stns, noOriginDep origin s = true) :
    ∀ td rows0 out, (td = none ∨ td = some now) →
      rtStationsFold t sts origin now stns (td, rows0) = Except.ok out →
      ∀ r ∈ out.2, r ∈ rows0 ∨ r.date = now := by
  induction stns with
  | nil =>
    intro td rows0 out _ h
    rw [rtStationsFold_nil] at h
    cases h
    exact fun r hr => Or.inl hr
  | cons a as ih =>
    intro td rows0 out htd h
    rw [rtStationsFold_cons] at h
    rcases rtStationRow_now t sts origin now hnow td htd rows0 a
        (hst a (List.mem_cons_self a as)) with ⟨e, he⟩ | ⟨td', rows', hok, htd', hprop⟩
    · rw [he] at h
      exact Except.noConfusion h
    · rw [hok, ok_bind] at h
      intro r hr
      rcases ih (fun s hsm => hst s (List.mem_cons_of_mem a hsm)) td' rows' out htd' h r hr
        with hmem | hdate
      · exact hprop r hmem
      · exact Or.inr hdate

/-- C5 (amended): within one train instance, the derived service date
follows the *position* of the origin entry, not the instance as a whole.
(1) When the instance's station list begins with the origin station
carrying a truthy, parseable scheduled departure (the expected payload
shape) and no later entry re-derives a different date, every record the
instance produces carries the origin-derived date. (2) When no entry of
the instance is an origin entry with a truthy scheduled departure, every
record carries the current date. Records emitted *before* the origin
entry is reached carry the current date instead (see the
counterexample), so the date is not derived once per instance. -/
theorem C5_service_date :
    (∀ (t : Nat) (sts : List String) (origin now D : String)
      (kv0 : List (String × JVal)) (rest : List JVal) (rows0 : List MemRow)
      (out : Option String × List MemRow),
      origin ∈ sts →
      dictGet kv0 "code" (.str "") = .str origin →
      (∃ dep0, dictGet kv0 "schDep" (.str "") = .str dep0 ∧ dep0 ≠ "" ∧
        fromisoformatDate dep0 = some D) →
      (∀ s ∈ rest, stationKeepsDate origin D s = true) →
      rtStationsFold t sts origin now (.obj kv0 :: rest) (none, rows0) = .ok out →
      ∀ r ∈ out.2, r ∈ rows0 ∨ r.date = D) ∧
    (∀ (t : Nat) (sts : List String) (origin now : String) (stns : List JVal)
      (rows0 : List MemRow) (out : Option String × List MemRow),
      now ≠ "" →
      (∀ s ∈ stns, noOriginDep origin s = true) →
      rtStationsFold t sts origin now stns (none, rows0) = .ok out →
      ∀ r ∈ out.2, r ∈ rows0 ∨ r.date = now) := by
  constructor
  · rintro t sts origin now D kv0 rest rows0 out hmem hcode ⟨dep0, hdep, hne, hiso⟩ hrest hfold
    have hD : D ≠ "" := fromisoformatDate_ne_empty hiso
    have hDtruthy : optTruthy (some D) = true := by simp [optTruthy, hD]
    rw [rtStationsFold_cons] at hfold
    have hcont : sts.contains origin = true := by
      simpa using hmem
    have hstep : ∃ row, rtStationRow t sts origin now (none, rows0) (.obj kv0)
        = .ok (some D, rows0 ++ [row]) ∧ row.date = D := by
      unfold rtStationRow
      dsimp only
      rw [hcode]
      dsimp only
      rw [if_pos hcont, hdep]
      have hcond : (decide (origin = origin) && jTruthy (JVal.str dep0)) = true := by
        simp [jTruthy, hne]
      rw [if_pos hcond]
      dsimp only
      rw [hiso]
      dsimp only [Option.getD]
      rw [if_pos hDtruthy]
      exact ⟨_, rfl, rfl⟩
    obtain ⟨row, hrow, hrowdate⟩ := hstep
    rw [hrow, ok_bind] at hfold
    obtain ⟨_, h2⟩ := rtFold_keeps t sts origin now D hD rest hrest (rows0 ++ [row]) out hfold
    intro r hr
    rcases h2 r hr with hmem' | hdate
    · rcases List.mem_append.mp hmem' with h1 | h1
      · exact Or.inl h1
      · right
        rcases List.mem_singleton.mp h1 with rfl
        exact hrowdate
    · exact Or.inr hdate
  · intro t sts origin now stns rows0 out hnow hst hfold
    exact rtFold_now t sts origin now hnow stns hst none rows0 out (Or.inl rfl) hfold

/-- Witness for `C5_service_date` at a well-ordered instance of train 53:
the origin LOR comes first with scheduled departure
`2026-02-09T18:30:00`, and both produced records carry `2026-02-09`. -/
theorem C5_service_date_witness :
    rtStationsFold 53 ["LOR", "SFA"] "LOR" "2026-02-10" (.obj c5kv0 :: c5rest) (none, [])
      = .ok (some "2026-02-09", [c5rowLOR, c5rowSFA]) ∧
    ∀ r ∈ [c5rowLOR, c5rowSFA], r ∈ ([] : List MemRow) ∨ r.date = "2026-02-09" :=
  ⟨rfl,
   C5_service_date.1 53 ["LOR", "SFA"] "LOR" "2026-02-10" "2026-02-09" c5kv0 c5rest []
     (some "2026-02-09", [c5rowLOR, c5rowSFA]) (by decide) rfl
     ⟨"2026-02-09T18:30:00", rfl, by decide, rfl⟩ (by decide) rfl⟩

/-- Counterexample to C5 as stated: in an instance listing SFA before the
origin LOR, `fetch_realtime` stamps the SFA record with the current date
(2026-02-10) and the LOR record with the origin-derived date
(2026-02-09), although the origin's scheduled departure is present and
parseable — the records of one instance do not all carry one and the
same serviceDate. -/
theorem C5_cex :
    (fetch_realtime 53 ["LOR", "SFA"] (.ok outOfOrderPayload) "2026-02-10").map
        (fun rows => rows.map MemRow.date)
      = .ok ["2026-02-10", "2026-02-09"] ∧
    ("2026-02-10" : String) ≠ "2026-02-09" :=
  ⟨rfl, by decide⟩

/-! ### Engine lemmas -/

/-- Recording is monotone: extending the store preserves positive
existence checks. -/
theorem recorded_append (store ext : List StoredRow) (d s : String) (t : PyVal)
    (h : date_already_recorded store d s t = true) :
    date_already_recorded (store ++ ext) d s t = true := by
  unfold date_already_recorded at h ⊢
  rw [List.any_append, h, Bool.true_or]

/-- The all-stations check is monotone under store extension. -/
theorem allRec_append (stations : List String) (store ext : List StoredRow)
    (d : String) (t : PyVal)
    (h : (stations.all fun s => date_already_recorded store d s t) = true) :
    (stations.all fun s => date_already_recorded (store ++ ext) d s t) = true := by
  rw [List.all_eq_true] at h ⊢
  exact fun s hs => recorded_append _ _ _ _ _ (h s hs)

/-- A row whose train number matches the loop's is recorded after its
batch is appended. -/
theorem recorded_of_mem_append (store : List StoredRow) (rows : List MemRow) (r : MemRow)
    (hr : r ∈ rows) (k : Nat) (ht : r.train_num = PyVal.int k) :
    date_already_recorded (append_rows store rows) r.date r.station (PyVal.int k) = true := by
  unfold date_already_recorded append_rows
  rw [List.any_append]
  have hright : ((rows.map serializeRow).any fun row =>
      row.date == r.date && row.station == r.station &&
        row.train_num == pyStr (PyVal.int k)) = true := by
    rw [List.any_eq_true]
    refine ⟨serializeRow r, List.mem_map_of_mem serializeRow hr, ?_⟩
    simp [serializeRow, pyStr, ht]
  rw [hright, Bool.or_true]

/-- `filterAppend` appends exactly its reported batch. -/
theorem filterAppend_store (store : List StoredRow) (k : Nat) (rows : List MemRow) :
    (filterAppend store k rows).1 = store ++ (filterAppend store k rows).2.map serializeRow := by
  unfold filterAppend
  dsimp only
  by_cases h : (!(rows.filter fun r =>
      !date_already_recorded store r.date r.station (.int k)).isEmpty) = true
  · rw [if_pos h]
    rfl
  · rw [if_neg h]
    simp

/-- When every row's key is already recorded, `filterAppend` appends
nothing. -/
theorem filterAppend_covered (store : List StoredRow) (k : Nat) (rows : List MemRow)
    (h : ∀ r ∈ rows, date_already_recorded store r.date r.station (.int k) = true) :
    filterAppend store k rows = (store, []) := by
  unfold filterAppend
  have hnil : (rows.filter fun r =>
      !date_already_recorded store r.date r.station (.int k)) = [] := by
    rw [List.filter_eq_nil_iff]
    intro r hr
    simp [h r hr]
  rw [hnil]
  rfl

/-- After `filterAppend`, every input row's key is recorded (it either
already was, or its batch has just been appended). -/
theorem filterAppend_recorded (store : List StoredRow) (k : Nat) (rows : List MemRow)
    (hdisc : ∀ r ∈ rows, r.train_num = PyVal.int k) (r : MemRow) (hr : r ∈ rows) :
    date_already_recorded (filterAppend store k rows).1 r.date r.station (PyVal.int k)
      = true := by
  by_cases hrec : date_already_recorded store r.date r.station (PyVal.int k) = true
  · rw [filterAppend_store]
    exact recorded_append _ _ _ _ _ hrec
  · have hpred : (!date_already_recorded store r.date r.station (PyVal.int k)) = true := by
      cases hb : date_already_recorded store r.date r.station (PyVal.int k)
      · rfl
      · exact absurd hb hrec
    have hrf : r ∈ rows.filter fun x =>
        !date_already_recorded store x.date x.station (PyVal.int k) :=
      List.mem_filter.mpr ⟨hr, hpred⟩
    have hne : (!(rows.filter fun x =>
        !date_already_recorded store x.date x.station (PyVal.int k)).isEmpty) = true := by
      rcases hq : rows.filter fun x =>
          !date_already_recorded store x.date x.station (PyVal.int k) with _ | ⟨a, l⟩
      · rw [hq] at hrf
        cases hrf
      · rw [hq]
        rfl
    unfold filterAppend
    dsimp only
    rw [if_pos hne]
    exact recorded_of_mem_append store _ r hrf k (hdisc r hr)

/-- The batch `filterAppend` appends is fresh with respect to the store
it was filtered against, keyed by each row's own train number. -/
theorem filterAppend_fresh (store : List StoredRow) (k : Nat) (rows : List MemRow)
    (hdisc : ∀ r ∈ rows, r.train_num = PyVal.int k) :
    ∀ r ∈ (filterAppend store k rows).2,
      date_already_recorded store r.date r.station r.train_num = false := by
  unfold filterAppend
  dsimp only
  by_cases h : (!(rows.filter fun r =>
      !date_already_recorded store r.date r.station (.int k)).isEmpty) = true
  · rw [if_pos h]
    intro r hr
    have hpred := List.of_mem_filter hr
    have hmem := List.mem_of_mem_filter hr
    rw [hdisc r hmem]
    cases hb : date_already_recorded store r.date r.station (PyVal.int k)
    · rfl
    · rw [hb] at hpred
      exact Bool.noConfusion hpred
  · rw [if_neg h]
    intro r hr
    cases hr

/-- `processTrain` appends exactly its reported batch onto the store. -/
theorem processTrain_store (rtF : RealtimeFn) (asmadF : AsmadFn) (today date_str : String)
    (k : Nat) (stations : List String) (store : List StoredRow) :
    (processTrain rtF asmadF today date_str k stations store).store
      = store ++ (processTrain rtF asmadF today date_str k stations store).appended.map
          serializeRow := by
  unfold processTrain
  by_cases hall : (stations.all fun s =>
      date_already_recorded store date_str s (.int k)) = true
  · rw [if_pos hall]
    simp
  · rw [if_neg hall]
    dsimp only
    by_cases hrt : (!(if date_str = today then rtF k stations else []).isEmpty) = true
    · rw [if_pos hrt]
      exact filterAppend_store store k _
    · rw [if_neg hrt]
      by_cases hh : (!(asmadF date_str date_str k stations).isEmpty) = true
      · rw [if_pos hh]
        exact filterAppend_store store k _
      · rw [if_neg hh]
        simp

/-- The batch appended by `processTrain` is fresh with respect to the
store the train's iteration started from. -/
theorem processTrain_fresh (rtF : RealtimeFn) (asmadF : AsmadFn) (today date_str : String)
    (k : Nat) (stations : List String) (store : List StoredRow)
    (hrt : ∀ r ∈ rtF k stations, r.train_num = PyVal.int k)
    (has : ∀ r ∈ asmadF date_str date_str k stations, r.train_num = PyVal.int k) :
    freshBatch store (processTrain rtF asmadF today date_str k stations store).appended := by
  have hrt' : ∀ r ∈ (if date_str = today then rtF k stations else []),
      r.train_num = PyVal.int k := by
    by_cases h : date_str = today
    · rw [if_pos h]
      exact hrt
    · rw [if_neg h]
      intro r hr
      cases hr
  unfold processTrain
  by_cases hall : (stations.all fun s =>
      date_already_recorded store date_str s (.int k)) = true
  · rw [if_pos hall]
    intro r hr
    cases hr
  · rw [if_neg hall]
    dsimp only
    by_cases hrte : (!(if date_str = today then rtF k stations else []).isEmpty) = true
    · rw [if_pos hrte]
      exact filterAppend_fresh store k _ hrt'
    · rw [if_neg hrte]
      by_cases hh : (!(asmadF date_str date_str k stations).isEmpty) = true
      · rw [if_pos hh]
        exact filterAppend_fresh store k _ has
      · rw [if_neg hh]
        intro r hr
        cases hr

/-- When the store already records every row either adapter would
contribute (realtime rows always, historical rows at least when the
realtime attempt yields nothing), a `processTrain` run leaves the store
unchanged. -/
theorem processTrain_unchanged (rtF : RealtimeFn) (asmadF : AsmadFn) (today date_str : String)
    (k : Nat) (stations : List String) (S : List StoredRow)
    (hcov_rt : ∀ r ∈ (if date_str = today then rtF k stations else []),
      date_already_recorded S r.date r.station (PyVal.int k) = true)
    (hcov_as : (if date_str = today then rtF k stations else []) = [] →
      ∀ r ∈ asmadF date_str date_str k stations,
        date_already_recorded S r.date r.station (PyVal.int k) = true) :
    (processTrain rtF asmadF today date_str k stations S).store = S := by
  unfold processTrain
  by_cases hall : (stations.all fun s =>
      date_already_recorded S date_str s (.int k)) = true
  · rw [if_pos hall]
  · rw [if_neg hall]
    dsimp only
    by_cases hrte : (!(if date_str = today then rtF k stations else []).isEmpty) = true
    · rw [if_pos hrte]
      rw [filterAppend_covered S k _ hcov_rt]
    · rw [if_neg hrte]
      have hrnil : (if date_str = today then rtF k stations else []) = [] := by
        rcases hq : (if date_str = today then rtF k stations else []) with _ | ⟨a, l⟩
        · rfl
        · rw [hq] at hrte
          exact absurd rfl hrte
      by_cases hh : (!(asmadF date_str date_str k stations).isEmpty) = true
      · rw [if_pos hh]
        rw [filterAppend_covered S k _ (hcov_as hrnil)]
      · rw [if_neg hh]

/-- Re-running a train's reconciliation on any extension of its own
result leaves the store unchanged (the stability behind idempotence). -/
theorem processTrain_stable (rtF : RealtimeFn) (asmadF : AsmadFn) (today date_str : String)
    (k : Nat) (stations : List String) (store ext : List StoredRow)
    (hrt : ∀ r ∈ rtF k stations, r.train_num = PyVal.int k)
    (has : ∀ r ∈ asmadF date_str date_str k stations, r.train_num = PyVal.int k) :
    (processTrain rtF asmadF today date_str k stations
        ((processTrain rtF asmadF today date_str k stations store).store ++ ext)).store
      = (processTrain rtF asmadF today date_str k stations store).store ++ ext := by
  have hrt' : ∀ r ∈ (if date_str = today then rtF k stations else []),
      r.train_num = PyVal.int k := by
    by_cases h : date_str = today
    · rw [if_pos h]
      exact hrt
    · rw [if_neg h]
      intro r hr
      cases hr
  by_cases hall : (stations.all fun s =>
      date_already_recorded store date_str s (.int k)) = true
  · have h1 : (processTrain rtF asmadF today date_str k stations store).store = store := by
      unfold processTrain
      rw [if_pos hall]
    rw [h1]
    unfold processTrain
    rw [if_pos (allRec_append stations store ext date_str (.int k) hall)]
  · -- the first run consulted an adapter; its rows are covered afterwards
    by_cases hrte : (!(if date_str = today then rtF k stations else []).isEmpty) = true
    · have h1 : (processTrain rtF asmadF today date_str k stations store).store
          = (filterAppend store k (if date_str = today then rtF k stations else [])).1 := by
        unfold processTrain
        rw [if_neg hall]
        dsimp only
        rw [if_pos hrte]
      rw [h1]
      apply processTrain_unchanged
      · intro r hr
        have := filterAppend_recorded store k _ hrt' r hr
        exact recorded_append _ _ _ _ _ this
      · intro hnil
        rw [hnil] at hrte
        exact Bool.noConfusion hrte
    · have hrnil : (if date_str = today then rtF k stations else []) = [] := by
        rcases hq : (if date_str = today then rtF k stations else []) with _ | ⟨a, l⟩
        · rfl
        · rw [hq] at hrte
          exact absurd rfl hrte
      by_cases hh : (!(asmadF date_str date_str k stations).isEmpty) = true
      · have h1 : (processTrain rtF asmadF today date_str k stations store).store
            = (filterAppend store k (asmadF date_str date_str k stations)).1 := by
          unfold processTrain
          rw [if_neg hall]
          dsimp only
          rw [if_neg hrte, if_pos hh]
        rw [h1]
        apply processTrain_unchanged
        · rw [hrnil]
          intro r hr
          cases hr
        · intro _ r hr
          have := filterAppend_recorded store k _ has r hr
          exact recorded_append _ _ _ _ _ this
      · have h1 : (processTrain rtF asmadF today date_str k stations store).store = store := by
          unfold processTrain
          rw [if_neg hall]
          dsimp only
          rw [if_neg hrte, if_neg hh]
        rw [h1]
        apply processTrain_unchanged
        · rw [hrnil]
          intro r hr
          cases hr
        · intro _ r hr
          have hnil2 : asmadF date_str date_str k stations = [] := by
            rcases hq : asmadF date_str date_str k stations with _ | ⟨a, l⟩
            · rfl
            · rw [hq] at hh
              exact absurd rfl hh
          rw [hnil2] at hr
          cases hr

/-- `processTrainBackfill` appends exactly its reported batch. -/
theorem processTrainBackfill_store (asmadF : AsmadFn) (startD endD : String)
    (k : Nat) (stations : List String) (store : List StoredRow) :
    (processTrainBackfill asmadF startD endD k stations store).store
      = store ++ (processTrainBackfill asmadF startD endD k stations store).appended.map
          serializeRow := by
  unfold processTrainBackfill
  by_cases hh : (!(asmadF startD endD k stations).isEmpty) = true
  · rw [if_pos hh]
    exact filterAppend_store store k _
  · rw [if_neg hh]
    simp

/-- The backfill batch is fresh with respect to the store it was filtered
against. -/
theorem processTrainBackfill_fresh (asmadF : AsmadFn) (startD endD : String)
    (k : Nat) (stations : List String) (store : List StoredRow)
    (has : ∀ r ∈ asmadF startD endD k stations, r.train_num = PyVal.int k) :
    freshBatch store (processTrainBackfill asmadF startD endD k stations store).appended := by
  unfold processTrainBackfill
  by_cases hh : (!(asmadF startD endD k stations).isEmpty) = true
  · rw [if_pos hh]
    exact filterAppend_fresh store k _ has
  · rw [if_neg hh]
    intro r hr
    cases hr

/-- Backfill stability: re-running on any extension of the first run's
result appends nothing. -/
theorem processTrainBackfill_stable (asmadF : AsmadFn) (startD endD : String)
    (k : Nat) (stations : List String) (store ext : List StoredRow)
    (has : ∀ r ∈ asmadF startD endD k stations, r.train_num = PyVal.int k) :
    (processTrainBackfill asmadF startD endD k stations
        ((processTrainBackfill asmadF startD endD k stations store).store ++ ext)).store
      = (processTrainBackfill asmadF startD endD k stations store).store ++ ext := by
  by_cases hh : (!(asmadF startD endD k stations).isEmpty) = true
  · have h1 : (processTrainBackfill asmadF startD endD k stations store).store
        = (filterAppend store k (asmadF startD endD k stations)).1 := by
      unfold processTrainBackfill
      rw [if_pos hh]
    have hcov : ∀ r ∈ asmadF startD endD k stations,
        date_already_recorded ((filterAppend store k (asmadF startD endD k stations)).1 ++ ext)
          r.date r.station (PyVal.int k) = true := by
      intro r hr
      exact recorded_append _ _ _ _ _ (filterAppend_recorded store k _ has r hr)
    rw [h1]
    unfold processTrainBackfill
    rw [if_pos hh]
    rw [filterAppend_covered _ k _ hcov]
  · have h1 : (processTrainBackfill asmadF startD endD k stations store).store = store := by
      unfold processTrainBackfill
      rw [if_neg hh]
    rw [h1]
    unfold processTrainBackfill
    rw [if_neg hh]

/-- The adapter-call trace of one daily train iteration, when not all
stations are recorded yet: realtime first (today only), historical only
when realtime produced nothing. -/
theorem processTrain_calls (rtF : RealtimeFn) (asmadF : AsmadFn) (today date_str : String)
    (k : Nat) (stations : List String) (store : List StoredRow)
    (hnot : (stations.all fun s => date_already_recorded store date_str s (.int k)) = false) :
    (processTrain rtF asmadF today date_str k stations store).calls
      = if date_str = today then
          (if (rtF k stations).isEmpty then
            [Call.realtime k, Call.asmad date_str date_str k]
           else [Call.realtime k])
        else [Call.asmad date_str date_str k] := by
  have hno : ¬((stations.all fun s =>
      date_already_recorded store date_str s (.int k)) = true) := by
    rw [hnot]
    exact Bool.false_ne_true
  unfold processTrain
  rw [if_neg hno]
  dsimp only
  by_cases ht : date_str = today
  · rw [if_pos ht, if_pos ht, if_pos ht]
    rcases hq : rtF k stations with _ | ⟨a, l⟩
    · by_cases hh : (!(asmadF date_str date_str k stations).isEmpty) = true
      · rw [if_pos hh]
        rfl
      · rw [if_neg hh]
        rfl
    · rfl
  · rw [if_neg ht, if_neg ht, if_neg ht, if_neg (by decide)]
    by_cases hh : (!(asmadF date_str date_str k stations).isEmpty) = true
    · rw [if_pos hh]
      rfl
    · rw [if_neg hh]
      rfl

/-- C3: in single-date reconciliation with not all stations recorded, an
empty realtime result for today triggers exactly one historical call
scoped to that single date; a nonempty realtime result suppresses the
historical adapter entirely (whether or not its rows survive dedup); and
for a date other than today the realtime attempt is skipped and the
historical adapter is consulted directly. -/
theorem C3_fallback (rtF : RealtimeFn) (asmadF : AsmadFn) (today date_str : String)
    (k : Nat) (stations : List String) (store : List StoredRow)
    (hnot : (stations.all fun s => date_already_recorded store date_str s (.int k)) = false) :
    (date_str = today → rtF k stations = [] →
      (processTrain rtF asmadF today date_str k stations store).calls
        = [Call.realtime k, Call.asmad date_str date_str k]) ∧
    (date_str = today → rtF k stations ≠ [] →
      ∀ a b t, Call.asmad a b t ∉ (processTrain rtF asmadF today date_str k stations store).calls) ∧
    (date_str ≠ today →
      (∀ t, Call.realtime t ∉ (processTrain rtF asmadF today date_str k stations store).calls) ∧
      Call.asmad date_str date_str k ∈
        (processTrain rtF asmadF today date_str k stations store).calls) := by
  rw [processTrain_calls rtF asmadF today date_str k stations store hnot]
  refine ⟨?_, ?_, ?_⟩
  · intro h1 h2
    rw [if_pos h1, h2]
    rfl
  · intro h1 h2 a b t hmem
    rcases hq : rtF k stations with _ | ⟨x, l⟩
    · exact absurd hq h2
    · rw [hq, if_pos h1] at hmem
      simp at hmem
  · intro h1
    rw [if_neg h1]
    exact ⟨fun t hm => by simp at hm, by simp⟩

/-- Witness for `C3_fallback` on an empty store with silent adapters for
train 53 on 2026-02-10. -/
theorem C3_fallback_witness :
    (processTrain emptyRtF emptyAsmadF "2026-02-10" "2026-02-10" 53 ["LOR", "SFA"] []).calls
      = [Call.realtime 53, Call.asmad "2026-02-10" "2026-02-10" 53] :=
  (C3_fallback emptyRtF emptyAsmadF "2026-02-10" "2026-02-10" 53 ["LOR", "SFA"] []
    (by decide)).1 rfl rfl

/-- C2 (amended): every appended record's dedup key was absent from the
store against which its batch was filtered — train 53's batch is fresh
for the starting store, train 52's batch is fresh for the store as
extended by train 53's batch, and the final store is the starting store
plus the two batches, for both the daily run and the backfill run.
Uniqueness can still fail *within* one batch (see the counterexample). -/
theorem C2_batch_freshness (rtF : RealtimeFn) (asmadF : AsmadFn)
    (today date_str startD endD : String) (store : List StoredRow)
    (hrt : ∀ t sts r, r ∈ rtF t sts → r.train_num = PyVal.int t)
    (has : ∀ a b t sts r, r ∈ asmadF a b t sts → r.train_num = PyVal.int t) :
    ((run_daily rtF asmadF today date_str store).store
        = store
          ++ (processTrain rtF asmadF today date_str 53 ["LOR", "SFA"] store).appended.map
              serializeRow
          ++ (processTrain rtF asmadF today date_str 52 ["SFA", "LOR"]
              (processTrain rtF asmadF today date_str 53 ["LOR", "SFA"] store).store).appended.map
              serializeRow
      ∧ freshBatch store (processTrain rtF asmadF today date_str 53 ["LOR", "SFA"] store).appended
      ∧ freshBatch (processTrain rtF asmadF today date_str 53 ["LOR", "SFA"] store).store
          (processTrain rtF asmadF today date_str 52 ["SFA", "LOR"]
            (processTrain rtF asmadF today date_str 53 ["LOR", "SFA"] store).store).appended) ∧
    ((run_backfill asmadF startD endD store).store
        = store
          ++ (processTrainBackfill asmadF startD endD 53 ["LOR", "SFA"] store).appended.map
              serializeRow
          ++ (processTrainBackfill asmadF startD endD 52 ["SFA", "LOR"]
              (processTrainBackfill asmadF startD endD 53 ["LOR", "SFA"] store).store).appended.map
              serializeRow
      ∧ freshBatch store (processTrainBackfill asmadF startD endD 53 ["LOR", "SFA"] store).appended
      ∧ freshBatch (processTrainBackfill asmadF startD endD 53 ["LOR", "SFA"] store).store
          (processTrainBackfill asmadF startD endD 52 ["SFA", "LOR"]
            (processTrainBackfill asmadF startD endD 53 ["LOR", "SFA"] store).store).appended) := by
  refine ⟨⟨?_, ?_, ?_⟩, ?_, ?_, ?_⟩
  · show (processTrain rtF asmadF today date_str 52 ["SFA", "LOR"]
        (processTrain rtF asmadF today date_str 53 ["LOR", "SFA"] store).store).store = _
    rw [processTrain_store rtF asmadF today date_str 52 ["SFA", "LOR"]
      (processTrain rtF asmadF today date_str 53 ["LOR", "SFA"] store).store]
    rw [processTrain_store rtF asmadF today date_str 53 ["LOR", "SFA"] store]
  · exact processTrain_fresh rtF asmadF today date_str 53 ["LOR", "SFA"] store
      (fun r hr => hrt 53 _ r hr) (fun r hr => has date_str date_str 53 _ r hr)
  · exact processTrain_fresh rtF asmadF today date_str 52 ["SFA", "LOR"] _
      (fun r hr => hrt 52 _ r hr) (fun r hr => has date_str date_str 52 _ r hr)
  · show (processTrainBackfill asmadF startD endD 52 ["SFA", "LOR"]
        (processTrainBackfill asmadF startD endD 53 ["LOR", "SFA"] store).store).store = _
    rw [processTrainBackfill_store asmadF startD endD 52 ["SFA", "LOR"]
      (processTrainBackfill asmadF startD endD 53 ["LOR", "SFA"] store).store]
    rw [processTrainBackfill_store asmadF startD endD 53 ["LOR", "SFA"] store]
  · exact processTrainBackfill_fresh asmadF startD endD 53 ["LOR", "SFA"] store
      (fun r hr => has startD endD 53 _ r hr)
  · exact processTrainBackfill_fresh asmadF startD endD 52 ["SFA", "LOR"] _
      (fun r hr => has startD endD 52 _ r hr)

/-- Witness for `C2_batch_freshness` with silent adapters on the empty
store: both runs append two empty, trivially fresh batches. -/
theorem C2_batch_freshness_witness :
    ((run_daily emptyRtF emptyAsmadF "2026-02-10" "2026-02-10" []).store
        = []
          ++ (processTrain emptyRtF emptyAsmadF "2026-02-10" "2026-02-10" 53 ["LOR", "SFA"]
              []).appended.map serializeRow
          ++ (processTrain emptyRtF emptyAsmadF "2026-02-10" "2026-02-10" 52 ["SFA", "LOR"]
              (processTrain emptyRtF emptyAsmadF "2026-02-10" "2026-02-10" 53 ["LOR", "SFA"]
                []).store).appended.map serializeRow
      ∧ freshBatch []
          (processTrain emptyRtF emptyAsmadF "2026-02-10" "2026-02-10" 53 ["LOR", "SFA"]
            []).appended
      ∧ freshBatch
          (processTrain emptyRtF emptyAsmadF "2026-02-10" "2026-02-10" 53 ["LOR", "SFA"] []).store
          (processTrain emptyRtF emptyAsmadF "2026-02-10" "2026-02-10" 52 ["SFA", "LOR"]
            (processTrain emptyRtF emptyAsmadF "2026-02-10" "2026-02-10" 53 ["LOR", "SFA"]
              []).store).appended) ∧
    ((run_backfill emptyAsmadF "2026-02-03" "2026-02-10" []).store
        = []
          ++ (processTrainBackfill emptyAsmadF "2026-02-03" "2026-02-10" 53 ["LOR", "SFA"]
              []).appended.map serializeRow
          ++ (processTrainBackfill emptyAsmadF "2026-02-03" "2026-02-10" 52 ["SFA", "LOR"]
              (processTrainBackfill emptyAsmadF "2026-02-03" "2026-02-10" 53 ["LOR", "SFA"]
                []).store).appended.map serializeRow
      ∧ freshBatch []
          (processTrainBackfill emptyAsmadF "2026-02-03" "2026-02-10" 53 ["LOR", "SFA"]
            []).appended
      ∧ freshBatch
          (processTrainBackfill emptyAsmadF "2026-02-03" "2026-02-10" 53 ["LOR", "SFA"] []).store
          (processTrainBackfill emptyAsmadF "2026-02-03" "2026-02-10" 52 ["SFA", "LOR"]
            (processTrainBackfill emptyAsmadF "2026-02-03" "2026-02-10" 53 ["LOR", "SFA"]
              []).store).appended) :=
  C2_batch_freshness emptyRtF emptyAsmadF "2026-02-10" "2026-02-10" "2026-02-03" "2026-02-10" []
    (fun t sts r hr => absurd hr (List.not_mem_nil r))
    (fun a b t sts r hr => absurd hr (List.not_mem_nil r))

/-- Counterexample to C2 as stated: a realtime payload with two active
instances of train 53 yields two rows with the same dedup key in one
batch; the in-batch filter checks only the CSV, so both are appended and
the store's keys are no longer pairwise distinct. -/
theorem C2_cex :
    ¬ ((run_daily dupRtF emptyAsmadF "2026-02-10" "2026-02-10" []).store.map storedKey).Nodup := by
  decide

/-- C6: starting from any store, with deterministic adapters, running the
daily reconciliation twice for the same date leaves the store exactly as
after the first run, and likewise re-running a backfill over the same
date range appends nothing. -/
theorem C6_idempotent (rtF : RealtimeFn) (asmadF : AsmadFn)
    (today date_str startD endD : String) (store : List StoredRow)
    (hrt : ∀ t sts r, r ∈ rtF t sts → r.train_num = PyVal.int t)
    (has : ∀ a b t sts r, r ∈ asmadF a b t sts → r.train_num = PyVal.int t) :
    (run_daily rtF asmadF today date_str
        (run_daily rtF asmadF today date_str store).store).store
      = (run_daily rtF asmadF today date_str store).store ∧
    (run_backfill asmadF startD endD
        (run_backfill asmadF startD endD store).store).store
      = (run_backfill asmadF startD endD store).store := by
  constructor
  · have hreduce : ∀ st : List StoredRow, (run_daily rtF asmadF today date_str st).store
        = (processTrain rtF asmadF today date_str 52 ["SFA", "LOR"]
            (processTrain rtF asmadF today date_str 53 ["LOR", "SFA"] st).store).store :=
      fun st => rfl
    rw [hreduce, hreduce]
    have h53 : (processTrain rtF asmadF today date_str 53 ["LOR", "SFA"]
        (processTrain rtF asmadF today date_str 52 ["SFA", "LOR"]
          (processTrain rtF asmadF today date_str 53 ["LOR", "SFA"] store).store).store).store
        = (processTrain rtF asmadF today date_str 52 ["SFA", "LOR"]
            (processTrain rtF asmadF today date_str 53 ["LOR", "SFA"] store).store).store := by
      conv_lhs => rw [processTrain_store rtF asmadF today date_str 52 ["SFA", "LOR"]
        (processTrain rtF asmadF today date_str 53 ["LOR", "SFA"] store).store]
      rw [processTrain_stable rtF asmadF today date_str 53 ["LOR", "SFA"] store _
        (fun r hr => hrt 53 _ r hr) (fun r hr => has date_str date_str 53 _ r hr)]
      rw [← processTrain_store rtF asmadF today date_str 52 ["SFA", "LOR"]
        (processTrain rtF asmadF today date_str 53 ["LOR", "SFA"] store).store]
    rw [h53]
    have h52 := processTrain_stable rtF asmadF today date_str 52 ["SFA", "LOR"]
      (processTrain rtF asmadF today date_str 53 ["LOR", "SFA"] store).store []
      (fun r hr => hrt 52 _ r hr) (fun r hr => has date_str date_str 52 _ r hr)
    rw [List.append_nil] at h52
    exact h52
  · have hreduce : ∀ st : List StoredRow, (run_backfill asmadF startD endD st).store
        = (processTrainBackfill asmadF startD endD 52 ["SFA", "LOR"]
            (processTrainBackfill asmadF startD endD 53 ["LOR", "SFA"] st).store).store :=
      fun st => rfl
    rw [hreduce, hreduce]
    have h53 : (processTrainBackfill asmadF startD endD 53 ["LOR", "SFA"]
        (processTrainBackfill asmadF startD endD 52 ["SFA", "LOR"]
          (processTrainBackfill asmadF startD endD 53 ["LOR", "SFA"] store).store).store).store
        = (processTrainBackfill asmadF startD endD 52 ["SFA", "LOR"]
            (processTrainBackfill asmadF startD endD 53 ["LOR", "SFA"] store).store).store := by
      conv_lhs => rw [processTrainBackfill_store asmadF startD endD 52 ["SFA", "LOR"]
        (processTrainBackfill asmadF startD endD 53 ["LOR", "SFA"] store).store]
      rw [processTrainBackfill_stable asmadF startD endD 53 ["LOR", "SFA"] store _
        (fun r hr => has startD endD 53 _ r hr)]
      rw [← processTrainBackfill_store asmadF startD endD 52 ["SFA", "LOR"]
        (processTrainBackfill asmadF startD endD 53 ["LOR", "SFA"] store).store]
    rw [h53]
    have h52 := processTrainBackfill_stable asmadF startD endD 52 ["SFA", "LOR"]
      (processTrainBackfill asmadF startD endD 53 ["LOR", "SFA"] store).store []
      (fun r hr => has startD endD 52 _ r hr)
    rw [List.append_nil] at h52
    exact h52

/-- The duplicate-producing adapter stamps the train number it serves. -/
theorem dupRtF_train_num : ∀ t sts (r : MemRow), r ∈ dupRtF t sts → r.train_num = PyVal.int t := by
  intro t sts r hr
  unfold dupRtF at hr
  by_cases ht : (t == 53) = true
  · rw [if_pos ht] at hr
    have h53 : t = 53 := by simpa using ht
    subst h53
    have hall : ∀ x ∈ dupRows, x.train_num = PyVal.int 53 := by decide
    exact hall r hr
  · rw [if_neg ht] at hr
    cases hr

/-- Witness for `C6_idempotent`: the duplicate-producing realtime adapter
on the empty store — the first daily run appends its rows, the second
appends nothing, and the backfill runs are likewise stable. -/
theorem C6_idempotent_witness :
    (run_daily dupRtF emptyAsmadF "2026-02-10" "2026-02-10"
        (run_daily dupRtF emptyAsmadF "2026-02-10" "2026-02-10" []).store).store
      = (run_daily dupRtF emptyAsmadF "2026-02-10" "2026-02-10" []).store ∧
    (run_backfill emptyAsmadF "2026-02-03" "2026-02-10"
        (run_backfill emptyAsmadF "2026-02-03" "2026-02-10" []).store).store
      = (run_backfill emptyAsmadF "2026-02-03" "2026-02-10" []).store :=
  C6_idempotent dupRtF emptyAsmadF "2026-02-10" "2026-02-10" "2026-02-03" "2026-02-10" []
    dupRtF_train_num
    (fun a b t sts r hr => absurd hr (List.not_mem_nil r))

end AmtrakStatus
